import Mathlib

/-!
Verification of the ai-manus agent engine and memory-compression subsystem.

Shallow embedding of the Python sources under `backend/app`:

* `app/domain/services/memory_compression_service.py` (`MemoryCompressionService`)
* `app/domain/services/memory_manager_service.py` (`MemoryManagerService`)
* `app/domain/services/agents/base.py` (`BaseAgent`)
* `app/infrastructure/external/llm/openai_llm.py` (`OpenAILLM`)
* `app/domain/models/memory.py`, `compression.py`, `exceptions.py`

Text is modelled as `List Char`.  Python's float expressions
`int(x * 1.5)`, `int(x * 1.3)`, `int(x * 0.5)`, `int(x * 0.6)`, `int(x * 0.7)`
are modelled by exact rational arithmetic (`(15*x)/10` etc. with Nat floor
division, `Int.tdiv` where the operand can be negative); at the concrete
values used in the theorems below the IEEE-754 double evaluation and the
exact evaluation agree.

External collaborators (the LLM transport, the tools, the structured
argument parser) are modelled as oracle functions passed in as parameters,
so that theorems quantify over every possible behaviour of the collaborator.
-/

set_option maxRecDepth 100000

namespace AiManus

/-- Text, modelled as a list of characters. -/
abbrev Str := List Char

/-- Helper: the character list of a string literal. -/
def str (s : String) : Str := s.toList

/-- CJK ideograph test: Python regex class `[一-鿿]`
(used by `_estimate_tokens` in both services). -/
def isCJK (c : Char) : Bool := 0x4e00 ≤ c.toNat && c.toNat ≤ 0x9fff

/-- ASCII letter, the regex class `[a-zA-Z]`. -/
def isAsciiAlpha (c : Char) : Bool :=
  (0x41 ≤ c.toNat && c.toNat ≤ 0x5a) || (0x61 ≤ c.toNat && c.toNat ≤ 0x7a)

/-- ASCII digit, the regex class `\d` restricted to ASCII. -/
def isDigitCh (c : Char) : Bool := 0x30 ≤ c.toNat && c.toNat ≤ 0x39

/-- Python regex `\w` (word character), which is Unicode-alphanumeric or
underscore.  The model covers the character classes the sources distinguish:
ASCII alphanumerics, underscore, and CJK ideographs (CJK ideographs are word
characters in Python's Unicode-aware `\b`). -/
def isWordChar (c : Char) : Bool :=
  isAsciiAlpha c || isDigitCh c || c = '_' || isCJK c

/-- Word-count automaton for the regex `\b[a-zA-Z]+\b` (`re.findall` count).
A match of that regex is a maximal ASCII-letter run whose neighbours (when
present) are not word characters.  State 0: at a word boundary; state 1:
inside a candidate letter run that started at a boundary; state 2: inside a
word-character region that cannot start or end a match. -/
def countWGo : Nat → Str → Nat
  | 1, [] => 1
  | _, [] => 0
  | 0, c :: r =>
    if isAsciiAlpha c then countWGo 1 r
    else if isWordChar c then countWGo 2 r
    else countWGo 0 r
  | 1, c :: r =>
    if isAsciiAlpha c then countWGo 1 r
    else if isWordChar c then countWGo 2 r
    else 1 + countWGo 0 r
  | _, c :: r =>
    if isWordChar c then countWGo 2 r
    else countWGo 0 r

/-- `len(re.findall(r'\b[a-zA-Z]+\b', text))` — the `english_words` count of
`_estimate_tokens`. -/
def countWords (l : Str) : Nat := countWGo 0 l

/-- `len(re.findall(r'[一-鿿]', text))` — the `chinese_chars` count
of `_estimate_tokens`. -/
def countCJK (l : Str) : Nat := (l.filter isCJK).length

/-- `MemoryCompressionService._estimate_tokens` /
`MemoryManagerService._estimate_tokens` (the two copies are identical):
`int(chinese_chars * 1.5 + english_words * 1.3 + other_chars * 0.5)` with
`other_chars = len(text) - chinese_chars - english_words`.  The float
expression equals the exact floor `(15*c + 13*w + 5*o) / 10` (see header). -/
def estimateTokens (l : Str) : Nat :=
  (15 * countCJK l + 13 * countWords l
    + 5 * (l.length - countCJK l - countWords l)) / 10

/-! ## Arithmetic facts about the estimator (for C8) -/

theorem countWGo_le (l : Str) : ∀ st, countWGo st l ≤
    (l.filter isAsciiAlpha).length + (if st = 1 then 1 else 0) := by
  induction l with
  | nil =>
    intro st
    match st with
    | 0 => simp [countWGo]
    | 1 => simp [countWGo]
    | Nat.succ (Nat.succ _) => simp [countWGo]
  | cons c r ih =>
    intro st
    have h0 := ih 0
    have h1 := ih 1
    have h2 := ih 2
    simp at h0 h1 h2
    match st with
    | 0 =>
      simp only [countWGo, List.filter]
      by_cases hA : isAsciiAlpha c
      · simp [hA]
        omega
      · by_cases hW : isWordChar c
        · simp [hA, hW]
          omega
        · simp [hA, hW]
          omega
    | 1 =>
      simp only [countWGo, List.filter]
      by_cases hA : isAsciiAlpha c
      · simp [hA]
        omega
      · by_cases hW : isWordChar c
        · simp [hA, hW]
          omega
        · simp [hA, hW]
          omega
    | Nat.succ (Nat.succ st') =>
      simp only [countWGo, List.filter]
      by_cases hW : isWordChar c
      · by_cases hA : isAsciiAlpha c
        · simp [hA, hW]
          omega
        · simp [hA, hW]
          omega
      · have hA : isAsciiAlpha c = false := by
          cases hac : isAsciiAlpha c
          · rfl
          · exact absurd (by simp [isWordChar, hac]) hW
        simp [hA, hW]
        omega

/-- A character is never both a CJK ideograph and an ASCII letter. -/
theorem not_cjk_and_alpha (c : Char) :
    ¬ (isCJK c = true ∧ isAsciiAlpha c = true) := by
  rintro ⟨hc, ha⟩
  simp [isCJK] at hc
  simp [isAsciiAlpha] at ha
  omega

theorem filter_cjk_alpha_le_length (l : Str) :
    (l.filter isCJK).length + (l.filter isAsciiAlpha).length ≤ l.length := by
  induction l with
  | nil => simp
  | cons c r ih =>
    have := not_cjk_and_alpha c
    by_cases hc : isCJK c
    · have ha : isAsciiAlpha c = false := by
        cases hac : isAsciiAlpha c
        · rfl
        · exact absurd ⟨hc, hac⟩ this
      simp only [List.filter, hc, ha, if_pos, Bool.false_eq_true, if_false,
        List.length_cons]
      omega
    · cases ha : isAsciiAlpha c
      · simp only [List.filter, hc, ha, Bool.false_eq_true, if_false,
          List.length_cons]
        omega
      · simp only [List.filter, hc, ha, if_pos, Bool.false_eq_true, if_false,
          List.length_cons]
        omega

/-- Each counted English word consumes at least one ASCII letter, letters are
never CJK, hence the `other_chars` subtraction never goes negative. -/
theorem counts_le_length (l : Str) : countCJK l + countWords l ≤ l.length := by
  have h1 : countWords l ≤ (l.filter isAsciiAlpha).length := by
    have := countWGo_le l 0
    simpa [countWords] using this
  have h2 : countCJK l = (l.filter isCJK).length := rfl
  have hsum := filter_cjk_alpha_le_length l
  omega

/-- Convenient closed form: `est l = (10*cjk + 8*words + 5*len) / 10`. -/
theorem estimateTokens_eq (l : Str) :
    estimateTokens l =
      (10 * countCJK l + 8 * countWords l + 5 * l.length) / 10 := by
  have h := counts_le_length l
  unfold estimateTokens
  congr 1
  omega

/-- Appending text preserves every completed word of the prefix except
possibly the word still open at the junction. -/
theorem countWGo_append (x : Str) (l : Str) :
    ∀ st, countWGo st l ≤ countWGo st (l ++ x) + 1 := by
  induction l with
  | nil =>
    intro st
    match st with
    | 0 => simp [countWGo]
    | 1 =>
      simp only [List.nil_append, countWGo]
      omega
    | Nat.succ (Nat.succ _) => simp [countWGo]
  | cons c r ih =>
    intro st
    have g0 := ih 0
    have g1 := ih 1
    have g2 := ih 2
    match st with
    | 0 =>
      simp only [countWGo, List.cons_append]
      by_cases hA : isAsciiAlpha c
      · simp [hA]
        omega
      · by_cases hW : isWordChar c
        · simp [hA, hW]
          omega
        · simp [hA, hW]
          omega
    | 1 =>
      simp only [countWGo, List.cons_append]
      by_cases hA : isAsciiAlpha c
      · simp [hA]
        omega
      · by_cases hW : isWordChar c
        · simp [hA, hW]
          omega
        · simp [hA, hW]
          omega
    | Nat.succ (Nat.succ st') =>
      simp only [countWGo, List.cons_append]
      by_cases hW : isWordChar c
      · simp [hW]
        omega
      · simp [hW]
        omega

theorem countWords_append (l x : Str) :
    countWords l ≤ countWords (l ++ x) + 1 :=
  countWGo_append x l 0

theorem countCJK_append (l x : Str) :
    countCJK (l ++ x) = countCJK l + countCJK x := by
  simp [countCJK, List.filter_append]

/-- C8, counterexample: the estimator is *not* monotone under appends.
`est("ab cd") = 4` but `est("ab cd1") = 3`: the appended digit destroys the
word boundary after `cd` (`\b[a-zA-Z]+\b` no longer matches `cd`), losing
`1.3` while the extra character only adds `0.5`. -/
theorem C8_counterexample :
    estimateTokens (str (r"ab cd")) = 4 ∧
    estimateTokens (str (r"ab cd") ++ (str (r"1"))) = 3 ∧
    ¬ estimateTokens (str (r"ab cd")) ≤
        estimateTokens (str (r"ab cd") ++ (str (r"1"))) := by
  refine ⟨by decide, by decide, by decide⟩

/-- C8 (amended): `_estimate_tokens` is deterministic (it is a pure function
of the text, so evaluating it twice on the same string yields the same
value), and appends are monotone up to one token: appending can invalidate
at most the word still open at the junction, so
`est(s) ≤ est(s ++ x) + 1` for every `s` and `x` — but plain monotonicity
`est(s) ≤ est(s ++ x)` fails (see the counterexample). -/
theorem C8_estimator_deterministic_and_almost_monotone (s x : Str) :
    estimateTokens s = estimateTokens s ∧
    estimateTokens s ≤ estimateTokens (s ++ x) + 1 := by
  refine ⟨rfl, ?_⟩
  rw [estimateTokens_eq, estimateTokens_eq]
  have hw := countWords_append s x
  have hc := countCJK_append s x
  have hl : (s ++ x).length = s.length + x.length := List.length_append s x
  omega

/-! ## Content segmentation (`MemoryCompressionService.segment_content`) -/

/-- Python `str.split()`: maximal runs of non-whitespace characters
(an accumulator-based scan; `cur` holds the reversed run in progress). -/
def pySplitGo : Str → Str → List Str
  | cur, [] => if cur = [] then [] else [cur.reverse]
  | cur, c :: r =>
    if c.isWhitespace then
      (if cur = [] then [] else [cur.reverse]) ++ pySplitGo [] r
    else pySplitGo (c :: cur) r

/-- `content.split()` — split on whitespace runs, no empty words. -/
def pySplit (l : Str) : List Str := pySplitGo [] l

/-- `' '.join(words)`. -/
def joinSpace (ws : List Str) : Str := List.intercalate [' '] ws

/-- The overlap kept when a segment is flushed:
`current_segment[-B:]` when `len(current_segment) >= B`, else the whole
segment (`B = word_boundary_size = 100`; Python `l[-B:]` equals
`drop (len - B)` for `B ≥ 1`). -/
def ovWords (B : ℕ) (seg : List Str) : List Str :=
  if B ≤ seg.length then seg.drop (seg.length - B) else seg

/-- The loop state of `segment_content`: emitted segments, the current
segment (kept as its word list; the source joins with `' '` on emission),
and the running token sum `current_tokens`. -/
structure SegLoopState where
  segs : List (List Str)
  cur : List Str
  curTokens : ℕ
deriving DecidableEq, Repr

/-- One iteration of the `for i, word in enumerate(words)` loop of
`segment_content`. -/
def segStep (B lim : ℕ) (st : SegLoopState) (w : Str) : SegLoopState :=
  let wt := estimateTokens w
  if st.curTokens + wt > lim ∧ st.cur ≠ [] then
    let ov := ovWords B st.cur
    { segs := st.segs ++ [st.cur]
      cur := ov ++ [w]
      curTokens := ((ov ++ [w]).map estimateTokens).sum }
  else
    { segs := st.segs, cur := st.cur ++ [w], curTokens := st.curTokens + wt }

/-- The word-level result of `segment_content`: run the loop, then append
the trailing segment if nonempty. -/
def segmentWordsFinal (B lim : ℕ) (ws : List Str) : List (List Str) :=
  let st := ws.foldl (segStep B lim) ⟨[], [], 0⟩
  if st.cur ≠ [] then st.segs ++ [st.cur] else st.segs

/-- `ContentSegment` (`app/domain/models/compression.py`). -/
structure ContentSegment where
  index : ℕ
  content : Str
  estimated_tokens : ℕ
  preserved_boundary : Bool
deriving DecidableEq, Repr

/-- `MemoryCompressionService.segment_content(content, target_token_limit)`:
the emitted `ContentSegment`s. Flushed segments carry
`_estimate_tokens(' '.join(seg))`; the trailing segment carries the running
per-word sum `current_tokens`, exactly as in the source. -/
def segment_content (content : Str) (lim : ℕ) : List ContentSegment :=
  let ws := pySplit content
  let segsW := segmentWordsFinal 100 lim ws
  segsW.enum.map fun p =>
    if p.1 + 1 = segsW.length then
      ⟨p.1, joinSpace p.2, (p.2.map estimateTokens).sum, true⟩
    else
      ⟨p.1, joinSpace p.2, estimateTokens (joinSpace p.2), true⟩

/-! ### Reconstruction of the original word sequence (C9) -/

/-- Reconstruction helper: drop from each segment the overlap it shares with
its predecessor (`min B |prev|` words) and concatenate. -/
def reconAux (B : ℕ) : List Str → List (List Str) → List Str
  | _, [] => []
  | prev, s :: rest => s.drop (min B prev.length) ++ reconAux B s rest

/-- Concatenation of the segments with the overlaps removed (overlap of a
segment with its predecessor is `min B |prev|` words). -/
def reconSegs (B : ℕ) : List (List Str) → List Str
  | [] => []
  | s :: rest => s ++ reconAux B s rest

/-- The literal reading of the spec sentence: remove exactly `B` words from
every segment after the first, then concatenate. -/
def reconStrict (B : ℕ) : List (List Str) → List Str
  | [] => []
  | s :: rest => s ++ (rest.map (List.drop B)).flatten

theorem ovWords_length (B : ℕ) (seg : List Str) :
    (ovWords B seg).length = min B seg.length := by
  unfold ovWords
  by_cases h : B ≤ seg.length
  · simp [h]
    omega
  · simp [h]
    omega

theorem drop_ovWords (B : ℕ) (last D : List Str) :
    (ovWords B last ++ D).drop (min B last.length) = D := by
  rw [show min B last.length = (ovWords B last).length from (ovWords_length B last).symm]
  exact List.drop_left _ _

theorem getLastD_append_singleton (xs : List (List Str)) (y : List Str) :
    ∀ d, (xs ++ [y]).getLastD d = y := by
  induction xs with
  | nil => intro d; rfl
  | cons s xs ih =>
    intro d
    rw [List.cons_append, List.getLastD_cons]
    exact ih s

theorem reconAux_snoc (B : ℕ) (xs : List (List Str)) :
    ∀ prev y, reconAux B prev (xs ++ [y]) =
      reconAux B prev xs ++ y.drop (min B (xs.getLastD prev).length) := by
  induction xs with
  | nil =>
    intro prev y
    simp [reconAux]
  | cons s xs ih =>
    intro prev y
    rw [List.cons_append]
    show s.drop (min B prev.length) ++ reconAux B s (xs ++ [y]) = _
    rw [ih s y, List.getLastD_cons]
    simp [reconAux, List.append_assoc]

theorem reconSegs_snoc (B : ℕ) (pre : List (List Str)) (last y : List Str) :
    reconSegs B ((pre ++ [last]) ++ [y]) =
      reconSegs B (pre ++ [last]) ++ y.drop (min B last.length) := by
  cases pre with
  | nil =>
    simp [reconSegs, reconAux]
  | cons p pre' =>
    rw [List.cons_append, List.cons_append]
    simp only [reconSegs]
    rw [reconAux_snoc B (pre' ++ [last]) p y, getLastD_append_singleton]
    simp [List.append_assoc]

/-- Loop invariant for `segment_content`: the emitted segments with overlaps
removed, together with the new part of the current segment, reconstruct the
words consumed so far. -/
def SegInv (B : ℕ) (consumed : List Str) (st : SegLoopState) : Prop :=
  (st.segs = [] ∧ st.cur = consumed)
  ∨ (∃ pre last D, st.segs = pre ++ [last] ∧ D ≠ [] ∧
      st.cur = ovWords B last ++ D ∧
      reconSegs B (pre ++ [last]) ++ D = consumed)

theorem segStep_inv (B lim : ℕ) (consumed : List Str) (st : SegLoopState)
    (w : Str) (h : SegInv B consumed st) :
    SegInv B (consumed ++ [w]) (segStep B lim st w) := by
  by_cases hc : st.curTokens + estimateTokens w > lim ∧ st.cur ≠ []
  · have hstep : segStep B lim st w =
        { segs := st.segs ++ [st.cur]
          cur := ovWords B st.cur ++ [w]
          curTokens := ((ovWords B st.cur ++ [w]).map estimateTokens).sum } := by
      simp only [segStep]
      rw [if_pos hc]
    rw [hstep]
    rcases h with ⟨hs, hcur⟩ | ⟨pre, last, D, hs, hD, hcur, hrec⟩
    · -- first flush: the whole consumed prefix becomes the first segment
      right
      refine ⟨[], st.cur, [w], by simp [hs], by simp, rfl, ?_⟩
      simp [reconSegs, reconAux, hcur]
    · -- later flush
      right
      refine ⟨pre ++ [last], st.cur, [w], by simp [hs], by simp, rfl, ?_⟩
      show reconSegs B ((pre ++ [last]) ++ [st.cur]) ++ [w] = consumed ++ [w]
      rw [reconSegs_snoc, hcur, drop_ovWords, ← hrec]
  · have hstep : segStep B lim st w =
        { segs := st.segs, cur := st.cur ++ [w]
          curTokens := st.curTokens + estimateTokens w } := by
      simp only [segStep]
      rw [if_neg hc]
    rw [hstep]
    rcases h with ⟨hs, hcur⟩ | ⟨pre, last, D, hs, hD, hcur, hrec⟩
    · exact Or.inl ⟨hs, by rw [hcur]⟩
    · right
      refine ⟨pre, last, D ++ [w], hs, by simp, ?_, ?_⟩
      · show st.cur ++ [w] = ovWords B last ++ (D ++ [w])
        rw [hcur, List.append_assoc]
      · rw [← List.append_assoc, hrec]

theorem segFold_inv (B lim : ℕ) (ws : List Str) :
    ∀ consumed st, SegInv B consumed st →
      SegInv B (consumed ++ ws) (ws.foldl (segStep B lim) st) := by
  induction ws with
  | nil => intro consumed st h; simpa using h
  | cons w ws ih =>
    intro consumed st h
    have h1 := segStep_inv B lim consumed st w h
    have h2 := ih (consumed ++ [w]) _ h1
    simpa [List.append_assoc] using h2

/-- C9 (amended), word-level core: the emitted segments, with the overlap a
segment shares with its predecessor (`min B |prev|` words) removed,
concatenate back to exactly the input word sequence. -/
theorem segmentWordsFinal_recon (B lim : ℕ) (ws : List Str) :
    reconSegs B (segmentWordsFinal B lim ws) = ws := by
  have h0 : SegInv B [] ⟨[], [], 0⟩ := Or.inl ⟨rfl, rfl⟩
  have h := segFold_inv B lim ws [] ⟨[], [], 0⟩ h0
  simp only [List.nil_append] at h
  unfold segmentWordsFinal
  rcases h with ⟨hs, hcur⟩ | ⟨pre, last, D, hs, hD, hcur, hrec⟩
  · by_cases hc : (ws.foldl (segStep B lim) ⟨[], [], 0⟩).cur = []
    · simp only [hc, ne_eq, not_true_eq_false, if_false]
      rw [hs]
      rw [hc] at hcur
      rw [← hcur]
      rfl
    · simp only [ne_eq, hc, not_false_eq_true, if_pos]
      rw [hs, hcur]
      simp [reconSegs, reconAux]
  · have hc : (ws.foldl (segStep B lim) ⟨[], [], 0⟩).cur ≠ [] := by
      rw [hcur]
      intro hemp
      rcases List.append_eq_nil.mp hemp with ⟨_, h2⟩
      exact hD h2
    simp only [ne_eq, hc, not_false_eq_true, if_pos]
    rw [hs, reconSegs_snoc, hcur, drop_ovWords, hrec]

theorem mem_reconAux (B : ℕ) (w : Str) :
    ∀ prev segs, w ∈ reconAux B prev segs → ∃ s ∈ segs, w ∈ s := by
  intro prev segs
  induction segs generalizing prev with
  | nil => intro h; simp [reconAux] at h
  | cons s rest ih =>
    intro h
    rcases List.mem_append.mp h with h1 | h2
    · exact ⟨s, List.mem_cons_self s rest, List.mem_of_mem_drop h1⟩
    · rcases ih s h2 with ⟨t, ht, hw⟩
      exact ⟨t, List.mem_cons_of_mem s ht, hw⟩

theorem mem_reconSegs (B : ℕ) (segs : List (List Str)) (w : Str)
    (h : w ∈ reconSegs B segs) : ∃ s ∈ segs, w ∈ s := by
  cases segs with
  | nil => simp [reconSegs] at h
  | cons s rest =>
    rcases List.mem_append.mp h with h1 | h2
    · exact ⟨s, List.mem_cons_self s rest, h1⟩
    · rcases mem_reconAux B w s rest h2 with ⟨t, ht, hw⟩
      exact ⟨t, List.mem_cons_of_mem s ht, hw⟩

/-- C9 (counterexample): with the overlap read literally as *B words*
(`B = 100`), reconstruction fails as soon as a flushed segment holds fewer
than `B` words, because then the whole previous segment (not `B` words) is
the overlap.  `segment_content("aa bb cc", 1)` emits the three segments
`[aa]`, `[aa bb]`, `[aa bb cc]`; dropping 100 words from each later segment
leaves only `[aa]`. -/
theorem C9_counterexample :
    (segmentWordsFinal 100 1 (pySplit (str (r"aa bb cc")))).length = 3 ∧
    reconStrict 100 (segmentWordsFinal 100 1 (pySplit (str (r"aa bb cc"))))
      ≠ pySplit (str (r"aa bb cc")) := by
  exact ⟨by decide, by decide⟩

/-- C9 (amended): `segment_content` covers every word of the text, in order,
and the concatenation of the segments with the overlaps removed equals the
original word sequence — where the overlap between a segment and its
predecessor is `min B |predecessor|` words (`B = word_boundary_size = 100`),
not always exactly `B`.  `segment_content` emits exactly these word lists,
each joined with single spaces. -/
theorem C9_segment_cover_and_recon (content : Str) (lim : ℕ) :
    reconSegs 100 (segmentWordsFinal 100 lim (pySplit content)) = pySplit content ∧
    ∀ w ∈ pySplit content,
      ∃ s ∈ segmentWordsFinal 100 lim (pySplit content), w ∈ s := by
  refine ⟨segmentWordsFinal_recon 100 lim (pySplit content), ?_⟩
  intro w hw
  exact mem_reconSegs 100 _ w
    (by rw [segmentWordsFinal_recon 100 lim (pySplit content)]; exact hw)

/-! ## Token-limit error parsing (C4)
`OpenAILLM.ask` (`openai_llm.py` lines 64-108) and
`MemoryCompressionService.parse_token_error` (identical inline logic). -/

/-- `TokenInfo` (`app/domain/models/compression.py`). -/
structure TokenInfo where
  current_tokens : ℕ
  max_tokens : ℕ
deriving DecidableEq, Repr

/-- Value of an ASCII digit character. -/
def digitVal (c : Char) : ℕ := c.toNat - 0x30

/-- Scanner for `re.findall(r'\b(\d{4,})\b', s)`: a match is a maximal
ASCII-digit run of length at least 4 whose neighbours (when present) are not
word characters.  State 0: at a word boundary; state 1: inside a candidate
digit run (`acc` is its value, `len` its length); state 2: inside a
word-character region that cannot contain a match. -/
def numsGo : ℕ → ℕ → ℕ → Str → List ℕ
  | 1, acc, len, [] => if 4 ≤ len then [acc] else []
  | _, _, _, [] => []
  | 0, _, _, c :: r =>
    if isDigitCh c then numsGo 1 (digitVal c) 1 r
    else if isWordChar c then numsGo 2 0 0 r
    else numsGo 0 0 0 r
  | 1, acc, len, c :: r =>
    if isDigitCh c then numsGo 1 (10 * acc + digitVal c) (len + 1) r
    else if isWordChar c then numsGo 2 0 0 r
    else (if 4 ≤ len then [acc] else []) ++ numsGo 0 0 0 r
  | _, _, _, c :: r =>
    if isWordChar c then numsGo 2 0 0 r
    else numsGo 0 0 0 r

/-- `numbers = re.findall(r'\b(\d{4,})\b', error_str)`, as values. -/
def findNumbers (l : Str) : List ℕ := numsGo 0 0 0 l

/-- `MemoryCompressionService.parse_token_error`: keep the first two
4-plus-digit numbers, require both to be strictly greater than 2000, sort;
the smaller becomes `max_tokens`, the larger `current_tokens`.  (The
`filter` of a two-element list has at most two elements, so the length-two
case is exactly the two-element match.) -/
def parse_token_error (errorMessage : Str) : Option TokenInfo :=
  let numbers := findNumbers errorMessage
  if 2 ≤ numbers.length then
    let tokenNumbers := (numbers.take 2).filter (fun n => 2000 < n)
    match tokenNumbers with
    | [a, b] => if a ≤ b then some ⟨b, a⟩ else some ⟨a, b⟩
    | _ => none
  else none

/-- Does `s` start with `pat`? -/
def startsWithStr : Str → Str → Bool
  | [], _ => true
  | _ :: _, [] => false
  | p :: ps, c :: cs => p == c && startsWithStr ps cs

/-- Python's substring test `pat in s`. -/
def containsStr (pat : Str) : Str → Bool
  | [] => startsWithStr pat []
  | c :: r => startsWithStr pat (c :: r) || containsStr pat r

/-- `any(keyword in error_str.lower() for keyword in
["token", "context", "length", "limit"])`. -/
def keywordHit (errorStr : Str) : Bool :=
  [str (r"token"), str (r"context"), str (r"length"), str (r"limit")].any
    (fun k => containsStr k (errorStr.map Char.toLower))

/-- What `OpenAILLM.ask` does with the transport exception text. -/
inductive AskErrorOutcome where
  /-- raises `TokenLimitExceededError(msg, current_tokens, max_tokens)` -/
  | tokenLimit (message : Str) (current_tokens max_tokens : ℕ)
  /-- re-raises the original transport exception unchanged -/
  | reraise
deriving DecidableEq, Repr

/-- The `TokenLimitExceededError` message,
`f"Token limit exceeded: {current_tokens}/{max_tokens}"`. -/
def tokenLimitMsg (current max : ℕ) : Str :=
  str (r"Token limit exceeded: ") ++ (Nat.repr current).toList
    ++ [Char.ofNat 0x2f] ++ (Nat.repr max).toList

/-- The exception handler of `OpenAILLM.ask` (lines 64-108): on a transport
failure, if the error text contains a token keyword and the first two
4-plus-digit numbers both exceed 2000, raise the typed error with the larger
number as `current_tokens` and the smaller as `max_tokens`; otherwise
re-raise the original exception.  (Lines 75-99 inline exactly the steps of
`parse_token_error`.) -/
def openaiAskErrorOutcome (errorStr : Str) : AskErrorOutcome :=
  if keywordHit errorStr then
    match parse_token_error errorStr with
    | some ti => .tokenLimit (tokenLimitMsg ti.current_tokens ti.max_tokens)
        ti.current_tokens ti.max_tokens
    | none => .reraise
  else .reraise

/-- The condition as the claim states it: a keyword plus at least two
integers `≥ 2000` anywhere in the text. -/
def specTokenLimitCondition (errorStr : Str) : Bool :=
  keywordHit errorStr &&
    2 ≤ ((findNumbers errorStr).filter (fun n => 2000 ≤ n)).length

/-- C4 (counterexample): the error text `"token limit: 2000 8192"` contains
a keyword and two integers `≥ 2000`, so the claim demands a typed
token-limit error, but the code filters with the strict comparison
`int(num) > 2000`, discards `2000`, and re-raises the original exception. -/
theorem C4_counterexample :
    specTokenLimitCondition (str (r"token limit: 2000 8192")) = true ∧
    openaiAskErrorOutcome (str (r"token limit: 2000 8192")) =
      AskErrorOutcome.reraise := by
  exact ⟨by decide, by decide⟩

theorem parse_token_error_char (e : Str) :
    parse_token_error e =
      match ((findNumbers e).take 2).filter (fun n => 2000 < n) with
      | [a, b] => some ⟨max a b, min a b⟩
      | _ => none := by
  unfold parse_token_error
  rcases h : findNumbers e with _ | ⟨a, t⟩
  · simp
  · rcases t with _ | ⟨b, rest⟩
    · by_cases ha : 2000 < a
      · simp [ha, List.filter]
      · simp [ha, List.filter]
    · have hlen : 2 ≤ (a :: b :: rest).length := by
        simp
      rw [if_pos hlen]
      have htake : (a :: b :: rest).take 2 = [a, b] := rfl
      rw [htake]
      by_cases ha : 2000 < a
      · by_cases hb : 2000 < b
        · by_cases hab : a ≤ b
          · have h1 : max a b = b := by omega
            have h2 : min a b = a := by omega
            simp [List.filter, ha, hb, hab, h1, h2]
          · have h1 : max a b = a := by omega
            have h2 : min a b = b := by omega
            simp [List.filter, ha, hb, hab, h1, h2]
        · simp [List.filter, ha, hb]
      · by_cases hb : 2000 < b
        · simp [List.filter, ha, hb]
        · simp [List.filter, ha, hb]

/-- C4 (amended): `OpenAILLM.ask` raises the typed token-limit error iff the
transport error text contains one of the keywords
`{token, context, length, limit}` (case-insensitively) *and the first two
integers of at least four digits in the text are both strictly greater than
2000* (integers `≤ 2000` and integers beyond the first two are ignored);
when it raises, the smaller of the two becomes `max_tokens` and the larger
`current_tokens`; every other failure is re-raised unchanged. -/
theorem C4_amended (e : Str) :
    ((∃ msg c m, openaiAskErrorOutcome e = AskErrorOutcome.tokenLimit msg c m) ↔
      (keywordHit e = true ∧
        2 ≤ (((findNumbers e).take 2).filter (fun n => 2000 < n)).length)) ∧
    (∀ a b, (findNumbers e).take 2 = [a, b] → 2000 < a → 2000 < b →
      keywordHit e = true →
      openaiAskErrorOutcome e =
        AskErrorOutcome.tokenLimit (tokenLimitMsg (max a b) (min a b))
          (max a b) (min a b)) := by
  constructor
  · constructor
    · rintro ⟨msg, c, m, hout⟩
      unfold openaiAskErrorOutcome at hout
      by_cases hk : keywordHit e = true
      · refine ⟨hk, ?_⟩
        rw [if_pos hk, parse_token_error_char] at hout
        rcases hf : ((findNumbers e).take 2).filter (fun n => 2000 < n) with
          _ | ⟨x, t⟩
        · rw [hf] at hout; exact absurd hout (by simp)
        · rcases t with _ | ⟨y, rest⟩
          · rw [hf] at hout; exact absurd hout (by simp)
          · simp [hf]
      · rw [if_neg hk] at hout
        exact absurd hout (by simp)
    · rintro ⟨hk, hlen⟩
      have hle : (((findNumbers e).take 2).filter (fun n => 2000 < n)).length ≤ 2 :=
        le_trans (List.length_filter_le _ _)
          (by have := List.length_take_le 2 (findNumbers e); omega)
      have h2 : (((findNumbers e).take 2).filter (fun n => 2000 < n)).length = 2 := by
        omega
      rcases List.length_eq_two.mp h2 with ⟨x, y, hxy⟩
      refine ⟨tokenLimitMsg (max x y) (min x y), max x y, min x y, ?_⟩
      unfold openaiAskErrorOutcome
      rw [if_pos hk, parse_token_error_char, hxy]
  · intro a b htake ha hb hk
    unfold openaiAskErrorOutcome
    rw [if_pos hk, parse_token_error_char, htake]
    simp [List.filter, ha, hb]

/-- C4 witness: a transport error text on which the amended
characterization produces the typed error; the larger integer becomes
`current_tokens`, the smaller `max_tokens`. -/
theorem C4_amended_witness :
    openaiAskErrorOutcome (str (r"context window: 9000 over 8192 limit")) =
      AskErrorOutcome.tokenLimit (tokenLimitMsg (max 9000 8192) (min 9000 8192))
        (max 9000 8192) (min 9000 8192) :=
  (C4_amended (str (r"context window: 9000 over 8192 limit"))).2 9000 8192
    (by decide) (by decide) (by decide) (by decide)

/-! ## Messages and memory (`app/domain/models/memory.py`)
Messages are the free-form dicts of the source, remodelled as a tagged
record: `role`, optional `content`, `tool_calls`, optional `tool_call_id`. -/

/-- A `function` field of a tool call: name and raw `arguments` text. -/
structure FuncCall where
  name : Str
  arguments : Str
deriving DecidableEq, Repr

/-- One entry of an assistant message's `tool_calls`. -/
structure ToolCall where
  id : Str
  function : Option FuncCall
deriving DecidableEq, Repr

/-- A conversation message. -/
structure Msg where
  role : Str
  content : Option Str
  tool_calls : List ToolCall := []
  tool_call_id : Option Str := none
deriving DecidableEq, Repr

/-- `msg.get("content", "")`. -/
def Msg.contentD (m : Msg) : Str := m.content.getD []

/-- A dummy message used with `List.getD` where the source indexes a list at
an index it has already validated. -/
def dummyMsg : Msg := ⟨[], none, [], none⟩

def nl : Str := [Char.ofNat 0x0a]

def roleSystem : Str := str (r"system")

def roleUser : Str := str (r"user")

def roleAssistant : Str := str (r"assistant")

def roleTool : Str := str (r"tool")

/-- `Memory.roll_back`: `self.messages = self.messages[:-1]`. -/
def memoryRollBack (msgs : List Msg) : List Msg := msgs.dropLast

/-! ## Shared service types (`app/domain/models/compression.py`) -/

/-- `AgentType`. -/
inductive AgentType where
  | planner
  | execution
deriving DecidableEq, Repr

/-- `CompressionType`. -/
inductive CompressionType where
  | user_input
  | tool_output
  | memory_cleanup
deriving DecidableEq, Repr

/-- `CompressionResult` (the `segments_processed` field is never read by the
subsystems embedded here and is omitted). -/
structure CompressionResult where
  original_content : Str
  compressed_content : Str
  compression_type : CompressionType
  original_token_count : ℕ
  compressed_token_count : ℕ
  preserved_intent : Option Str := none
  summary : Option Str := none
deriving DecidableEq, Repr

/-- `CompressionResult.token_saved` — a Python `int`, which can be
negative when the summary is longer than the original. -/
def CompressionResult.token_saved (r : CompressionResult) : ℤ :=
  (r.original_token_count : ℤ) - r.compressed_token_count

/-- Exceptions of the agent layer: the typed
`TokenLimitExceededError(message, current_tokens, max_tokens)` versus every
other exception (`ValueError`, `RuntimeError`, transport errors), carried by
message text. -/
inductive AgentErr where
  | tokenLimit (message : Str) (current_tokens max_tokens : ℕ)
  | err (message : Str)
deriving DecidableEq, Repr

/-- The LLM collaborator (`app/domain/external/llm.py` interface):
`ask(messages, tools, response_format)` as a pure oracle — theorems
quantify over every oracle — plus the `max_tokens` property.  `tools` is
modelled by the flat list of exposed function names and `response_format`
by its `type` string. -/
structure LLM where
  ask : List Msg → Option (List Str) → Option Str → Except AgentErr Msg
  max_tokens : ℕ

/-! ## Memory manager (`app/domain/services/memory_manager_service.py`) -/

/-- `cleanup_threshold = 20`. -/
def cleanup_threshold : ℕ := 20

/-- `keep_recent_count = 8`. -/
def keep_recent_count : ℕ := 8

def taskKeywords : List Str :=
  [str (r"帮我"), str (r"请"), str (r"需要"), str (r"任务"), str (r"目标"),
   str (r"help"), str (r"please"), str (r"need"), str (r"task"), str (r"goal")]

/-- The task test inside `_find_initial_task_message`:
`any(keyword in content for keyword in task_keywords) or len(content) > 50`
on `content = msg.get("content", "").lower()`. -/
def isTaskContent (m : Msg) : Bool :=
  let content := m.contentD.map Char.toLower
  taskKeywords.any (fun k => containsStr k content) || 50 < content.length

/-- `MemoryManagerService._find_initial_task_message`: the first user
message passing the task test, else the first user message. -/
def find_initial_task_message (msgs : List Msg) : Option Msg :=
  match msgs.find? (fun m => m.role == roleUser && isTaskContent m) with
  | some m => some m
  | none => msgs.find? (fun m => m.role == roleUser)

/-- The `for i, msg in enumerate(messages): if i not in preserved_indices`
loop collecting the middle messages, with `i` the running index. -/
def middleFrom (pres : ℕ → Bool) : ℕ → List Msg → List Msg
  | _, [] => []
  | i, m :: r => if pres i then middleFrom pres (i + 1) r
                 else m :: middleFrom pres (i + 1) r

/-- The system message of `_identify_important_messages`: index 0, if it
has the system role. -/
def identifySystemMsg (msgs : List Msg) : Option Msg :=
  match msgs.head? with
  | some m => if m.role == roleSystem then some m else none
  | none => none

/-- `preserved_indices = {0 if system} ∪ {messages.index(task_msg)} ∪
range(recent_start, len)` with
`recent_start_index = max(0, len - keep_recent)` (truncated subtraction),
as a predicate on the running index. -/
def preservedPred (msgs : List Msg) : ℕ → Bool := fun i =>
  ((identifySystemMsg msgs).isSome && i == 0)
  || (match find_initial_task_message msgs with
      | some t => i == msgs.indexOf t
      | none => false)
  || (decide (msgs.length - keep_recent_count ≤ i) && decide (i < msgs.length))

/-- `MemoryManagerService._identify_important_messages`:
`(system message, task message, middle messages, recent messages)`. -/
def identify_important_messages (msgs : List Msg) :
    Option Msg × Option Msg × List Msg × List Msg :=
  (identifySystemMsg msgs, find_initial_task_message msgs,
   middleFrom (preservedPred msgs) 0 msgs,
   msgs.drop (msgs.length - keep_recent_count))

/-- Modelled from the spec: the prompt templates
(`app/domain/services/prompts/memory_manager.py`) are not under `src/`;
only the fact that each prompt is a function of the summarised content and
the task context matters to any claim. -/
def executionHistorySummaryPrompt (content taskContext : Str) : Str :=
  str (r"EXECUTION_HISTORY_SUMMARY_PROMPT/") ++ content ++ nl ++ taskContext

/-- Modelled from the spec: see `executionHistorySummaryPrompt`. -/
def generalSummaryPrompt (content taskContext : Str) : Str :=
  str (r"GENERAL_SUMMARY_PROMPT/") ++ content ++ nl ++ taskContext

/-- `MemoryManagerService._messages_to_text`:
`"\n".join(f"[{role}]: {content}")`. -/
def messages_to_text (msgs : List Msg) : Str :=
  List.intercalate nl
    (msgs.map fun m =>
      str (r"[") ++ m.role ++ str (r"]: ") ++ m.contentD)

/-- `_generate_execution_history_summary` / `_generate_general_summary`:
ask the LLM for a summary of the middle messages; on a missing `content`
key or any exception fall back to `content[:300] + "..."`.  The two
branches differ only in their prompt template. -/
def generate_history_summary (llm : LLM) (agentType : AgentType)
    (middle : List Msg) (task_msg : Option Msg) : Str :=
  let content := messages_to_text middle
  let taskContext := match task_msg with
    | some t => str (r"原始任务需求：") ++ t.contentD.take 200
    | none => []
  let prompt := match agentType with
    | AgentType.execution => executionHistorySummaryPrompt content taskContext
    | AgentType.planner => generalSummaryPrompt content taskContext
  match llm.ask [⟨roleUser, some prompt, [], none⟩] none none with
  | .ok resp => resp.content.getD (content.take 300 ++ str (r"..."))
  | .error _ => content.take 300 ++ str (r"...")

/-- The `CompressionResult` returned when nothing was compressed. -/
def nullCleanupResult : CompressionResult :=
  ⟨[], [], CompressionType.memory_cleanup, 0, 0, none, none⟩

/-- `MemoryManagerService.compress_by_message_count`, as a state transformer
on the memory's message list (the source mutates `memory` in place and
returns the `CompressionResult`). -/
def compress_by_message_count (llm : LLM) (agentType : AgentType)
    (msgs : List Msg) : CompressionResult × List Msg :=
  if msgs.length < cleanup_threshold then (nullCleanupResult, msgs)
  else
    match identify_important_messages msgs with
    | (system_msg, task_msg, middle, recent) =>
      if middle = [] then (nullCleanupResult, msgs)
      else
        let summary := generate_history_summary llm agentType middle task_msg
        let summaryMessage : Msg :=
          ⟨roleAssistant, some (str (r"[历史对话摘要]: ") ++ summary), [], none⟩
        let newMessages :=
          (match system_msg with | some s => [s] | none => [])
          ++ (match task_msg with
              | some t => if recent.contains t then [] else [t]
              | none => [])
          ++ [summaryMessage] ++ recent
        let originalContent := messages_to_text middle
        (⟨originalContent, summary, CompressionType.memory_cleanup,
           estimateTokens originalContent, estimateTokens summary,
           none, some summary⟩,
         newMessages)

/-- `MemoryManagerService.should_compress_by_count`. -/
def should_compress_by_count (msgs : List Msg) : Bool :=
  if msgs.isEmpty then false else cleanup_threshold ≤ msgs.length

/-- `MemoryManagerService.auto_manage_memory`: returns whether a
*token-saving* compression happened together with the (possibly mutated)
message list.  Note the source mutates the memory inside
`compress_by_message_count` even when `token_saved ≤ 0`, in which case it
still returns `False`. -/
def auto_manage_memory (llm : LLM) (agentType : AgentType) (force : Bool)
    (msgs : List Msg) : Bool × List Msg :=
  if force || should_compress_by_count msgs then
    let (res, msgs') := compress_by_message_count llm agentType msgs
    (0 < res.token_saved, msgs')
  else (false, msgs)

/-- `MemoryManagerService.find_and_compress_longest_message` (it only
*finds*; despite its name it compresses nothing): the strictly-longest
non-system message, returned iff its estimate exceeds `max_tokens * 0.3`
(exact arithmetic `10 * tokens > 3 * max_tokens`). -/
def find_and_compress_longest_message (msgs : List Msg) (maxTokens : ℕ) :
    Option (ℕ × Str) :=
  let best : ℕ × ℕ × Str := msgs.enum.foldl
    (fun acc p =>
      if p.2.role == roleSystem then acc
      else
        let tokens := estimateTokens p.2.contentD
        if acc.1 < tokens then (tokens, p.1, p.2.role) else acc)
    ((0 : ℕ), (0 : ℕ), ([] : Str))
  if 10 * best.1 > 3 * maxTokens then some (best.2.1, best.2.2) else none

/-! ### Memory-manager theorems (C7, C10) -/

theorem middleFrom_ne_nil (pres : ℕ → Bool) :
    ∀ (l : List Msg) (i j : ℕ), j < l.length → pres (i + j) = false →
      middleFrom pres i l ≠ [] := by
  intro l
  induction l with
  | nil => intro i j hj _; simp at hj
  | cons m r ih =>
    intro i j hj hp
    by_cases hpi : pres i = true
    · cases j with
      | zero =>
        rw [Nat.add_zero] at hp
        rw [hp] at hpi
        cases hpi
      | succ j' =>
        simp only [middleFrom, hpi, if_pos]
        refine ih (i + 1) j' (by simp at hj; omega) ?_
        have he : i + 1 + j' = i + (j' + 1) := by omega
        rw [he]
        exact hp
    · simp only [middleFrom, hpi, if_false, Bool.false_eq_true]
      simp

theorem preservedPred_gap (msgs : List Msg) (h : cleanup_threshold ≤ msgs.length) :
    ∃ j, j < msgs.length ∧ preservedPred msgs j = false := by
  classical
  set ti : ℕ := (match find_initial_task_message msgs with
    | some t => msgs.indexOf t
    | none => 3) with hti
  refine ⟨if ti = 1 then 2 else 1, ?_, ?_⟩
  · have : cleanup_threshold = 20 := rfl
    split <;> omega
  · set j := if ti = 1 then 2 else 1 with hj
    have hj0 : j ≠ 0 := by rw [hj]; split <;> omega
    have hj2 : j ≤ 2 := by rw [hj]; split <;> omega
    have hjti : j ≠ ti := by rw [hj]; split <;> omega
    unfold preservedPred
    have h1 : (j == 0) = false := by
      simp [hj0]
    have h3 : (decide (msgs.length - keep_recent_count ≤ j)
        && decide (j < msgs.length)) = false := by
      have : cleanup_threshold = 20 := rfl
      have hk : keep_recent_count = 8 := rfl
      have : ¬ (msgs.length - keep_recent_count ≤ j) := by omega
      simp [this]
    rw [h1, h3]
    simp only [Bool.and_false, Bool.false_or, Bool.or_false]
    match hfind : find_initial_task_message msgs with
    | none => rfl
    | some t =>
      have : ti = msgs.indexOf t := by rw [hti, hfind]
      simp only [beq_iff_eq]
      rw [← this]
      simp [hjti]

theorem compress_by_message_count_bound (llm : LLM) (atype : AgentType)
    (msgs : List Msg) (h : cleanup_threshold ≤ msgs.length) :
    (compress_by_message_count llm atype msgs).2.length ≤
      keep_recent_count + 3 ∧
    (∀ s, msgs.head? = some s → s.role = roleSystem →
      (compress_by_message_count llm atype msgs).2.head? = some s) := by
  have hmid : middleFrom (preservedPred msgs) 0 msgs ≠ [] := by
    rcases preservedPred_gap msgs h with ⟨j, hjlen, hjp⟩
    exact middleFrom_ne_nil (preservedPred msgs) msgs 0 j hjlen (by simpa using hjp)
  have hrec : (msgs.drop (msgs.length - keep_recent_count)).length =
      keep_recent_count := by
    rw [List.length_drop]
    have : cleanup_threshold = 20 := rfl
    have hk : keep_recent_count = 8 := rfl
    omega
  unfold compress_by_message_count
  rw [if_neg (by omega)]
  unfold identify_important_messages
  simp only [hmid, if_false]
  constructor
  · simp only [List.length_append]
    have h1 : (match identifySystemMsg msgs with
        | some s => [s] | none => ([] : List Msg)).length ≤ 1 := by
      match identifySystemMsg msgs with
      | some s => simp
      | none => simp
    have h2 : (match find_initial_task_message msgs with
        | some t => if (msgs.drop (msgs.length - keep_recent_count)).contains t
            then ([] : List Msg) else [t]
        | none => ([] : List Msg)).length ≤ 1 := by
      match find_initial_task_message msgs with
      | some t =>
        by_cases hc : t ∈ msgs.drop (msgs.length - keep_recent_count)
        · simp [hc]
        · simp [hc]
      | none => simp
    simp only [List.length_append, List.length_singleton] at *
    omega
  · intro s hhead hrole
    have hsys : identifySystemMsg msgs = some s := by
      unfold identifySystemMsg
      rw [hhead]
      simp [hrole]
    rw [hsys]
    rfl

/-- C7: when the message count has reached `cleanup_threshold` (20),
`auto_manage_memory` leaves at most `keep_recent_count + 3 = 11` messages
(system?, task?, summary, last 8) and keeps the index-0 system message, when
present, at index 0 — for every LLM behaviour and for both the automatic
and the forced variant. -/
theorem C7_auto_manage_bound (llm : LLM) (atype : AgentType) (force : Bool)
    (msgs : List Msg) (h : cleanup_threshold ≤ msgs.length) :
    (auto_manage_memory llm atype force msgs).2.length ≤
      keep_recent_count + 3 ∧
    (∀ s, msgs.head? = some s → s.role = roleSystem →
      (auto_manage_memory llm atype force msgs).2.head? = some s) := by
  have hsc : should_compress_by_count msgs = true := by
    unfold should_compress_by_count
    have hne : msgs.isEmpty = false := by
      cases msgs with
      | nil => simp [cleanup_threshold] at h
      | cons a l => rfl
    rw [hne]
    simp [h]
  have hcond : (force || should_compress_by_count msgs) = true := by
    rw [hsc]; simp
  have hb := compress_by_message_count_bound llm atype msgs h
  unfold auto_manage_memory
  rw [if_pos hcond]
  exact hb

/-- C7 witness: a concrete 20-message memory (system + 19 alternating
user/assistant messages) compressed by a concrete LLM oracle. -/
def witnessLLM : LLM := ⟨fun _ _ _ => .error (.err []), 8192⟩

def witnessMsg (i : ℕ) : Msg :=
  ⟨(if i % 2 = 0 then roleUser else roleAssistant),
   some (str (r"m") ++ (Nat.repr i).toList), [], none⟩

def witnessMemory20 : List Msg :=
  ⟨roleSystem, some (str (r"prompt")), [], none⟩ ::
    ((List.range 19).map witnessMsg)

theorem C7_auto_manage_bound_witness :
    cleanup_threshold ≤ witnessMemory20.length ∧
    (auto_manage_memory witnessLLM AgentType.execution false
      witnessMemory20).2.length ≤ keep_recent_count + 3 ∧
    (auto_manage_memory witnessLLM AgentType.execution false
      witnessMemory20).2.head? =
      some ⟨roleSystem, some (str (r"prompt")), [], none⟩ := by
  have h : cleanup_threshold ≤ witnessMemory20.length := by decide
  have hb := C7_auto_manage_bound witnessLLM AgentType.execution false
    witnessMemory20 h
  exact ⟨h, hb.1, hb.2 _ (by decide) (by decide)⟩

/-- C10: a forced `auto_manage_memory` on a memory below
`cleanup_threshold` (20) messages leaves the message list unchanged and
returns `False` — `compress_by_message_count` returns the empty result
before touching the memory, and `token_saved = 0` is not `> 0`. -/
theorem C10_force_below_threshold_noop (llm : LLM) (atype : AgentType)
    (msgs : List Msg) (h : msgs.length < cleanup_threshold) :
    auto_manage_memory llm atype true msgs = (false, msgs) := by
  unfold auto_manage_memory
  rw [if_pos (by simp)]
  unfold compress_by_message_count
  rw [if_pos h]
  simp [nullCleanupResult, CompressionResult.token_saved]

/-- C10 witness: a concrete 3-message memory is untouched by a forced
cleanup. -/
theorem C10_force_below_threshold_noop_witness :
    ((witnessMemory20.take 3).length < cleanup_threshold) ∧
    auto_manage_memory witnessLLM AgentType.execution true
      (witnessMemory20.take 3) = (false, witnessMemory20.take 3) :=
  ⟨by decide, C10_force_below_threshold_noop witnessLLM AgentType.execution _
    (by decide)⟩

/-! ## Compression service (`app/domain/services/memory_compression_service.py`) -/

/-- Python slice `l[:k]` where `k` may be a negative int (then it counts
from the end, clamped at 0). -/
def pySlice (l : Str) (k : ℤ) : Str :=
  if 0 ≤ k then l.take k.toNat else l.take ((l.length : ℤ) + k).toNat

/-- Modelled from the spec: the compression prompt templates
(`app/domain/services/prompts/compression.py`) are not under `src/`; each
prompt is modelled as a tagged concatenation of the arguments the source
formats into the template. -/
def plannerCompressionPrompt (userContent : Str) (targetTokens : ℕ) : Str :=
  str (r"PLANNER_COMPRESSION_PROMPT/") ++ (Nat.repr targetTokens).toList
    ++ nl ++ userContent

/-- Modelled from the spec: see `plannerCompressionPrompt`. -/
def toolOutputSummaryPrompt (stepDescription toolOutput : Str) : Str :=
  str (r"TOOL_OUTPUT_EXECUTION_SUMMARY_PROMPT/") ++ stepDescription
    ++ nl ++ toolOutput

/-- Modelled from the spec: see `plannerCompressionPrompt`. -/
def contentSummaryPrompt (context content : Str) : Str :=
  str (r"CONTENT_SUMMARY_PROMPT/") ++ context ++ nl ++ content

/-- Modelled from the spec: see `plannerCompressionPrompt`. -/
def userIntentPrompt (userInput : Str) : Str :=
  str (r"USER_INTENT_EXTRACTION_PROMPT/") ++ userInput

/-- Modelled from the spec: see `plannerCompressionPrompt`. -/
def segmentSummaryPrompt (context previousSummary : Str)
    (segmentIndex totalSegments : ℕ) (segmentContent : Str) : Str :=
  str (r"SEGMENT_SUMMARY_PROMPT/") ++ context ++ nl ++ previousSummary
    ++ nl ++ (Nat.repr segmentIndex).toList ++ [Char.ofNat 0x2f]
    ++ (Nat.repr totalSegments).toList ++ nl ++ segmentContent

/-- Modelled from the spec: see `plannerCompressionPrompt`. -/
def combineSummariesPrompt (previousSummary newSummary : Str)
    (targetTokens : ℕ) : Str :=
  str (r"COMBINE_SUMMARIES_PROMPT/") ++ previousSummary ++ nl ++ newSummary
    ++ nl ++ (Nat.repr targetTokens).toList

/-- A single-user-message conversation, as the compression service sends to
`llm.ask` (without tools and without a response format). -/
def promptMsg (prompt : Str) : List Msg := [⟨roleUser, some prompt, [], none⟩]

/-- The planner compression target:
`max(int((max_tokens - 4000) * 0.6), 500)` — exact truncated arithmetic
over ℤ (the operand can be negative when `max_tokens < 4000`). -/
def plannerTarget (maxTokens : ℕ) : ℕ :=
  (max (Int.tdiv (6 * ((maxTokens : ℤ) - 4000)) 10) 500).toNat

/-- `' '.join(words[:k])` — the word-level front truncation used by the
planner compression (`int(target_tokens * 0.7)` words). -/
def truncWords (s : Str) (k : ℕ) : Str := joinSpace ((pySplit s).take k)

/-- `MemoryCompressionService.compress_user_input_for_planner`.  The
`context` argument is accepted and ignored, as in the source. -/
def compress_user_input_for_planner (llm : LLM) (content _context : Str)
    (ti : TokenInfo) : CompressionResult :=
  let originalTokens := estimateTokens content
  let targetTokens := plannerTarget ti.max_tokens
  if originalTokens ≤ targetTokens then
    ⟨content, content, CompressionType.user_input, originalTokens,
      originalTokens, some content, none⟩
  else
    match llm.ask (promptMsg (plannerCompressionPrompt
        (content.take (targetTokens * 3)) targetTokens)) none none with
    | .ok resp =>
      let compressed := resp.content.getD []
      let compressed' :=
        if targetTokens < estimateTokens compressed then
          truncWords compressed ((7 * targetTokens) / 10)
        else compressed
      ⟨content, compressed', CompressionType.user_input, originalTokens,
        estimateTokens compressed', some compressed', none⟩
    | .error _ =>
      let truncated := truncWords content ((7 * targetTokens) / 10)
      ⟨content, truncated, CompressionType.user_input, originalTokens,
        estimateTokens truncated, none, none⟩

/-- `MemoryCompressionService.compress_tool_output_for_execution`. -/
def compress_tool_output_for_execution (llm : LLM) (content context : Str)
    (ti : TokenInfo) : CompressionResult :=
  let originalTokens := estimateTokens content
  let targetTokens := ti.max_tokens / 4
  match llm.ask (promptMsg (toolOutputSummaryPrompt context
      (content.take (targetTokens * 3)))) none none with
  | .ok resp =>
    let summary := resp.content.getD (content.take 300 ++ str (r"..."))
    let compressedContent := str (r"[工具执行结果摘要 - 步骤: ") ++ context
      ++ str (r"]:") ++ nl ++ summary
    ⟨content, compressedContent, CompressionType.tool_output, originalTokens,
      estimateTokens compressedContent, none, some summary⟩
  | .error _ =>
    let truncated := content.take (targetTokens * 2) ++ str (r"...")
    let compressedContent := str (r"[工具输出截断 - 步骤: ") ++ context
      ++ str (r"]:") ++ nl ++ truncated
    ⟨content, compressedContent, CompressionType.tool_output, originalTokens,
      estimateTokens compressedContent, none, none⟩

/-- `MemoryCompressionService.extract_user_intent`. -/
def extract_user_intent (llm : LLM) (userInput : Str) : Str :=
  match llm.ask (promptMsg (userIntentPrompt (userInput.take 1000)))
      none none with
  | .ok resp => resp.content.getD (userInput.take 500)
  | .error _ => userInput.take 500

/-- `MemoryCompressionService.summarize_content`. -/
def summarize_content (llm : LLM) (content context : Str) : Str :=
  let ctx := if context = [] then str (r"无特定上下文") else context
  match llm.ask (promptMsg (contentSummaryPrompt ctx content)) none none with
  | .ok resp => resp.content.getD (content.take 200 ++ str (r"..."))
  | .error _ => content.take 200 ++ str (r"...")

/-- `MemoryCompressionService.compress_content_general`.  `available_tokens`
and `target_tokens` are Python ints that can be negative; the slice
`content[:target_tokens * 3]` then counts from the end (`pySlice`). -/
def compress_content_general (llm : LLM) (content contentType context : Str)
    (ti : TokenInfo) : CompressionResult :=
  let originalTokens := estimateTokens content
  let available : ℤ := (ti.max_tokens : ℤ) - ti.current_tokens + originalTokens
  let targetTokens : ℤ := max (available - 500) ((ti.max_tokens / 4 : ℕ) : ℤ)
  let isUser := contentType == roleUser
  let intent := if isUser then some (extract_user_intent llm content) else none
  let pre :=
    if isUser then
      str (r"[用户意图]: ") ++ intent.getD [] ++ nl ++ nl ++ str (r"[内容摘要]: ")
    else
      str (r"[") ++ contentType ++ str (r"内容摘要 - ") ++ context ++ str (r"]: ")
  let summary := summarize_content llm (pySlice content (targetTokens * 3)) context
  let compressedContent := pre ++ summary
  ⟨content, compressedContent,
    (if isUser then CompressionType.user_input else CompressionType.tool_output),
    originalTokens, estimateTokens compressedContent, intent, some summary⟩

/-- `MemoryCompressionService.compress_for_immediate_use`: dispatch on
`(agent_type, content_type)`. -/
def compress_for_immediate_use (llm : LLM) (content contentType context : Str)
    (ti : TokenInfo) (agentType : AgentType) : CompressionResult :=
  if agentType = AgentType.planner && contentType == roleUser then
    compress_user_input_for_planner llm content context ti
  else if agentType = AgentType.execution && contentType == roleTool then
    compress_tool_output_for_execution llm content context ti
  else
    compress_content_general llm content contentType context ti

/-! ### Segmented processing generator
(`MemoryCompressionService.process_long_content_in_segments`) -/

/-- The `content` dict yielded for one segment. -/
structure SegmentInput where
  segment_index : ℕ
  total_segments : ℕ
  content : Str
  context : Str
  has_history : Bool
  history_summary : Str
deriving DecidableEq, Repr

/-- One `{"type": "segment", ...}` yield. -/
structure SegRecord where
  index : ℕ
  total : ℕ
  input : SegmentInput
  summary : Str
deriving DecidableEq, Repr

/-- `MemoryCompressionService._generate_segment_summary`. -/
def generate_segment_summary (llm : LLM) (segmentContent context
    previousSummary : Str) (segmentIndex totalSegments : ℕ) : Str :=
  let prev := if previousSummary = [] then str (r"无") else previousSummary
  match llm.ask (promptMsg (segmentSummaryPrompt context prev segmentIndex
      totalSegments segmentContent)) none none with
  | .ok resp => resp.content.getD (segmentContent.take 200 ++ str (r"..."))
  | .error _ => segmentContent.take 200 ++ str (r"...")

/-- `MemoryCompressionService._combine_summaries`
(`target_length = summary_context_size = 500` at the call site). -/
def combine_summaries (llm : LLM) (previousSummary newSummary : Str)
    (targetLength : ℕ) : Str :=
  let combined := previousSummary ++ nl ++ nl ++ newSummary
  if estimateTokens combined ≤ targetLength then combined
  else
    match llm.ask (promptMsg (combineSummariesPrompt previousSummary
        newSummary targetLength)) none none with
    | .ok resp => resp.content.getD (combined.take targetLength)
    | .error _ => combined.take targetLength

/-- The `for i, segment in enumerate(segments)` loop of
`process_long_content_in_segments`: builds the yield records and the
accumulated rolling summary.  `i` is the 0-based index. -/
def processSegmentsGo (llm : LLM) (context : Str) (total : ℕ) :
    List Str → ℕ → Str → List SegRecord × Str
  | [], _, acc => ([], acc)
  | seg :: rest, i, acc =>
    let input : SegmentInput :=
      if i = 0 then ⟨i + 1, total, seg, context, false, []⟩
      else ⟨i + 1, total, seg, context, true, acc⟩
    let segmentSummary := generate_segment_summary llm seg context acc
      (i + 1) total
    let acc' := if acc ≠ [] then combine_summaries llm acc segmentSummary 500
      else segmentSummary
    let (rest', accF) := processSegmentsGo llm context total rest (i + 1) acc'
    (⟨i, total, input, segmentSummary⟩ :: rest', accF)

/-- `MemoryCompressionService.process_long_content_in_segments` as the list
of its `"segment"` yields plus the final `"final_summary"` yield (`none`
when there are no segments): `reserved = int(max_tokens * 0.5)`,
`segment_size = max_tokens - reserved`. -/
def process_long_content_in_segments (llm : LLM) (content context : Str)
    (maxTokens : ℕ) : List SegRecord × Option Str :=
  let reserved := (5 * maxTokens) / 10
  let segmentSize := maxTokens - reserved
  let segs := (segmentWordsFinal 100 segmentSize (pySplit content)).map joinSpace
  if segs.length = 0 then ([], none)
  else
    let (records, finalAcc) := processSegmentsGo llm context segs.length segs 0 []
    (records, some finalAcc)

/-! ### Planner-compression theorems (C6) -/

/-- The claim's reading of the single-pass planner compression of an LLM
rewrite: an under-producing rewrite (estimated tokens `< target/10`) falls
back to a front-truncation of the *original* content; an over-producing one
is truncated to `0.7·target` words; otherwise the rewrite is kept. -/
def specPlannerRewriteResult (content rewrite : Str) (target : ℕ) : Str :=
  if 10 * estimateTokens rewrite < target then
    truncWords content ((7 * target) / 10)
  else if target < estimateTokens rewrite then
    truncWords rewrite ((7 * target) / 10)
  else rewrite

/-- An LLM oracle whose rewrite under-produces: it always answers `"x"`. -/
def c6LLM : LLM := ⟨fun _ _ _ => .ok ⟨roleAssistant, some (str (r"x")), [], none⟩, 4000⟩

/-- 334 CJK ideographs: estimated tokens `⌊334·1.5⌋ = 501`, above the
planner target `max(0.6·(4000-4000), 500) = 500`. -/
def c6Content : Str := List.replicate 334 (Char.ofNat 0x4e2d)

/-- C6 (counterexample): with `max_tokens = 4000` the target is 500; the
LLM rewrite `"x"` estimates to 1 token, far below `target/10 = 50`, yet
`compress_user_input_for_planner` keeps `"x"` as the compressed content —
there is no under-production fallback to a front-truncation of the original
(the fallback the claim describes would return the original 334-ideograph
word here). -/
theorem C6_counterexample :
    (compress_user_input_for_planner c6LLM c6Content []
        ⟨5000, 4000⟩).compressed_content = str (r"x") ∧
    10 * estimateTokens (str (r"x")) < plannerTarget 4000 ∧
    plannerTarget 4000 < estimateTokens c6Content ∧
    specPlannerRewriteResult c6Content (str (r"x")) (plannerTarget 4000)
      ≠ str (r"x") := by
  exact ⟨by decide, by decide, by decide, by decide⟩

/-- C6 (amended): the planner compression computes
`target = max(trunc(0.6·(max_tokens − 4000)), 500)`; content already within
the target is returned unchanged; a successful LLM rewrite is truncated to
`0.7·target` words when its estimate exceeds the target and is otherwise
kept as-is (*even when it under-produces*); the front-truncation of the
original content happens exactly when the LLM call fails. -/
theorem C6_amended (llm : LLM) (content context : Str) (ti : TokenInfo) :
    (estimateTokens content ≤ plannerTarget ti.max_tokens →
      (compress_user_input_for_planner llm content context ti).compressed_content
        = content) ∧
    (plannerTarget ti.max_tokens < estimateTokens content →
      (∀ resp, llm.ask (promptMsg (plannerCompressionPrompt
            (content.take (plannerTarget ti.max_tokens * 3))
            (plannerTarget ti.max_tokens))) none none = Except.ok resp →
        ((estimateTokens (resp.content.getD []) ≤ plannerTarget ti.max_tokens →
          (compress_user_input_for_planner llm content context ti).compressed_content
            = resp.content.getD []) ∧
         (plannerTarget ti.max_tokens < estimateTokens (resp.content.getD []) →
          (compress_user_input_for_planner llm content context ti).compressed_content
            = truncWords (resp.content.getD [])
                ((7 * plannerTarget ti.max_tokens) / 10)))) ∧
      (∀ e, llm.ask (promptMsg (plannerCompressionPrompt
            (content.take (plannerTarget ti.max_tokens * 3))
            (plannerTarget ti.max_tokens))) none none = Except.error e →
        (compress_user_input_for_planner llm content context ti).compressed_content
          = truncWords content ((7 * plannerTarget ti.max_tokens) / 10))) := by
  constructor
  · intro hle
    unfold compress_user_input_for_planner
    rw [if_pos hle]
  · intro hgt
    have hno : ¬ (estimateTokens content ≤ plannerTarget ti.max_tokens) := by
      omega
    constructor
    · intro resp hask
      constructor
      · intro hle2
        unfold compress_user_input_for_planner
        rw [if_neg hno, hask]
        simp only []
        rw [if_neg (by omega)]
      · intro hgt2
        unfold compress_user_input_for_planner
        rw [if_neg hno, hask]
        simp only []
        rw [if_pos hgt2]
    · intro e hask
      unfold compress_user_input_for_planner
      rw [if_neg hno, hask]

/-- C6 witness: the amended theorem applied to the concrete
under-producing oracle. -/
theorem C6_amended_witness :
    (compress_user_input_for_planner c6LLM c6Content []
        ⟨5000, 4000⟩).compressed_content = str (r"x") :=
  (((C6_amended c6LLM c6Content [] ⟨5000, 4000⟩).2 (by decide)).1
    ⟨roleAssistant, some (str (r"x")), [], none⟩ rfl).1 (by decide)

/-! ## Agent engine (`app/domain/services/agents/base.py`) -/

/-- `ToolResult` (`app/domain/models/tool_result.py` is not under `src/`).
Modelled from the spec: `ToolResult{success, message?, data?}` as used by
`Memory.compact` and the execute loop. -/
structure ToolResult where
  success : Bool
  message : Option Str := none
  data : Option Str := none
deriving DecidableEq, Repr

def quoteCh : Str := [Char.ofNat 0x22]

def jsonOptStr (s : Option Str) : Str :=
  match s with
  | none => str (r"null")
  | some v => quoteCh ++ v ++ quoteCh

/-- Modelled from the spec: pydantic `model_dump_json()` of a `ToolResult`
(string escaping inside values is not modelled; the theorems only use
values without special characters). -/
def ToolResult.model_dump_json (r : ToolResult) : Str :=
  [Char.ofNat 0x7b] ++ quoteCh ++ str (r"success") ++ quoteCh ++ str (r":")
    ++ (if r.success then str (r"true") else str (r"false"))
    ++ str (r",") ++ quoteCh ++ str (r"message") ++ quoteCh ++ str (r":")
    ++ jsonOptStr r.message
    ++ str (r",") ++ quoteCh ++ str (r"data") ++ quoteCh ++ str (r":")
    ++ jsonOptStr r.data
    ++ [Char.ofNat 0x7d]

/-- Modelled from the spec: the event variants of
`app/domain/events/agent_events.py` (not under `src/`) that
`BaseAgent.execute` emits. -/
inductive ToolStatus where
  | calling
  | called
deriving DecidableEq, Repr

/-- Modelled from the spec: see `ToolStatus`. -/
inductive Event where
  | toolEvent (status : ToolStatus) (tool_name function_name : Str)
      (function_args : Str) (function_result : Option ToolResult)
  | errorEvent (error : Str)
  | messageEvent (message : Option Str)
deriving DecidableEq, Repr

/-- A toolkit: its `name` and the function names it exposes
(`BaseTool.has_function`). -/
structure ToolSpec where
  name : Str
  functions : List Str
deriving DecidableEq, Repr

/-- The static per-agent configuration (class attributes of `BaseAgent` and
its subclasses). -/
structure AgentConfig where
  name : Str
  system_prompt : Str
  format : Option Str
  max_iterations : ℕ := 30
  max_retries : ℕ := 3
  tools : List ToolSpec
deriving DecidableEq, Repr

/-- `self._agent_type = PLANNER if self.name == "planner" else EXECUTION`. -/
def AgentConfig.agentType (cfg : AgentConfig) : AgentType :=
  if cfg.name == str (r"planner") then AgentType.planner else AgentType.execution

/-- `get_available_tools`: the flattened function list (modelled by the
function names). -/
def AgentConfig.availableTools (cfg : AgentConfig) : List Str :=
  (cfg.tools.map ToolSpec.functions).flatten

/-- The in-process memory (`self.memory`, `None` until loaded) together
with the memory the repository currently holds (`AgentRepository` is
external; `save_memory` replaces it, modelled as state). -/
structure AgentState where
  mem : Option (List Msg)
  repoMem : List Msg
deriving DecidableEq, Repr

/-- `BaseAgent._add_to_memory`: load the memory from the repository on
first use (seeding the system prompt when empty), append the messages, and
save. -/
def add_to_memory (cfg : AgentConfig) (msgs : List Msg) (st : AgentState) :
    AgentState :=
  let loaded :=
    match st.mem with
    | none =>
      if st.repoMem = [] then [⟨roleSystem, some cfg.system_prompt, [], none⟩]
      else st.repoMem
    | some m => m
  let memNew := loaded ++ msgs
  { mem := some memNew, repoMem := memNew }

/-- A tool collaborator: the outcome of the `attempt`-th call of
`invoke_function(function_name, **arguments)` — theorems quantify over
every behaviour.  `.error e` models a raised exception with text `e`. -/
def ToolOracle : Type := Str → Str → ℕ → Except Str ToolResult

/-- The retry loop of `BaseAgent.invoke_tool`: `remaining` retries left,
`idx` the attempt number.  Started with `remaining = max_retries`, it makes
`max_retries + 1` attempts and then raises
`ValueError(f"Tool execution failed, retried {max_retries} times: {last_error}")`. -/
def invokeToolGo (attempt : ℕ → Except Str ToolResult) (maxRetries : ℕ) :
    ℕ → ℕ → Except Str ToolResult
  | remaining, idx =>
    match attempt idx with
    | .ok r => .ok r
    | .error e =>
      match remaining with
      | 0 => .error (str (r"Tool execution failed, retried ")
          ++ (Nat.repr maxRetries).toList ++ str (r" times: ") ++ e)
      | r + 1 => invokeToolGo attempt maxRetries r (idx + 1)

/-- `BaseAgent.invoke_tool`. -/
def invoke_tool (maxRetries : ℕ) (attempt : ℕ → Except Str ToolResult) :
    Except Str ToolResult :=
  invokeToolGo attempt maxRetries maxRetries 0

/-- The engine's normalisation step:
`if message.get("tool_calls"): message["tool_calls"] = message["tool_calls"][:1]`. -/
def truncCalls (m : Msg) : Msg := { m with tool_calls := m.tool_calls.take 1 }

/-- `BaseAgent._get_task_context`. -/
def get_task_context (msgs : List Msg) (msgIndex : ℕ) (msgType : Str) : Str :=
  if msgType == roleUser then
    match msgs.find? (fun m => m.role == roleUser && 50 < m.contentD.length) with
    | some m => m.contentD.take 200
    | none => str (r"用户输入")
  else if msgType == roleTool && 0 < msgIndex then
    let prev := msgs.getD (msgIndex - 1) dummyMsg
    if prev.role == roleAssistant then
      (prev.content.getD (str (r"工具执行"))).take 200
    else str (r"执行任务")
  else str (r"执行任务")

/-- The intermediate acknowledgment appended after a non-final segment:
`{"role": "assistant", "content": f"已处理第{i}段内容。"}`. -/
def ackMsg (i : ℕ) : Msg :=
  ⟨roleAssistant, some (str (r"已处理第") ++ (Nat.repr i).toList
    ++ str (r"段内容。")), [], none⟩

/-- The formatted per-segment content written into the chosen message slot
by `_handle_segmented_processing`. -/
def segRecordFormatted (input : SegmentInput) : Str :=
  if input.has_history then
    str (r"[历史摘要]:") ++ nl ++ input.history_summary ++ nl ++ nl
      ++ str (r"[当前内容 - 第") ++ (Nat.repr input.segment_index).toList
      ++ [Char.ofNat 0x2f] ++ (Nat.repr input.total_segments).toList
      ++ str (r"段]:") ++ nl ++ input.content
  else
    str (r"[内容 - 第") ++ (Nat.repr input.segment_index).toList
      ++ [Char.ofNat 0x2f] ++ (Nat.repr input.total_segments).toList
      ++ str (r"段]:") ++ nl ++ input.content

/-- The `async for segment_result in segment_generator` loop of
`_handle_segmented_processing` over the `"segment"` yields: write the
formatted block into the slot, rebuild the memory (without saving), ask the
LLM; collect responses, appending the acknowledgment for non-final
segments; on an exception restore the original message and re-raise. -/
def segLoop (cfg : AgentConfig) (llm : LLM) (respFormat : Option Str)
    (msgIndex : ℕ) (origMsg : Msg) :
    List SegRecord → List Msg → List Msg → AgentState →
      Except (AgentErr × AgentState) (List Msg × List Msg × AgentState)
  | [], msgs, responses, st => .ok (responses, msgs, st)
  | rec :: rest, msgs, responses, st =>
    let msgsF := msgs.set msgIndex
      { msgs.getD msgIndex dummyMsg with
          content := some (segRecordFormatted rec.input) }
    match llm.ask msgsF (some cfg.availableTools) respFormat with
    | .ok response =>
      let memNext := if rec.index < rec.total - 1
        then msgsF ++ [ackMsg (rec.index + 1)] else msgsF
      segLoop cfg llm respFormat msgIndex origMsg rest msgsF
        (responses ++ [response]) { mem := some memNext, repoMem := st.repoMem }
    | .error e =>
      let msgsR := msgsF.set msgIndex origMsg
      .error (e, { mem := some msgsR, repoMem := st.repoMem })

/-- `BaseAgent._merge_json_responses`: returns `responses[-1]`. -/
def merge_json_responses (responses : List Msg) : Msg :=
  responses.getLast?.getD dummyMsg

/-- `BaseAgent._handle_segmented_processing`. -/
def handle_segmented_processing (cfg : AgentConfig) (llm : LLM)
    (msgIndex : ℕ) (msgType content : Str) (ti : TokenInfo)
    (respFormat : Option Str) (st : AgentState) :
    Except AgentErr Msg × AgentState :=
  let msgs := st.mem.getD []
  let context := get_task_context msgs msgIndex msgType
  let origMsg := msgs.getD msgIndex dummyMsg
  let (records, finalSummary) :=
    process_long_content_in_segments llm content context ti.max_tokens
  match segLoop cfg llm respFormat msgIndex origMsg records msgs [] st with
  | .error (e, stE) => (.error e, stE)
  | .ok (responses, msgsF, stF) =>
    let stG : AgentState :=
      match finalSummary with
      | some fs =>
        let msgsG := msgsF.set msgIndex
          { msgsF.getD msgIndex dummyMsg with
              content := some (str (r"[内容摘要]:") ++ nl ++ fs) }
        { mem := some msgsG, repoMem := msgsG }
      | none => stF
    match responses.getLast? with
    | none =>
      (.error (.err (str (r"No response generated from segmented processing"))),
       stG)
    | some finalResponse =>
      let merged :=
        if 1 < responses.length && respFormat == some (str (r"json_object"))
        then merge_json_responses responses else finalResponse
      let final := truncCalls merged
      (.ok final, add_to_memory cfg [final] stG)

/-- The task-context computation at the top of `BaseAgent._compress_and_retry`
(`context` stays `"未知任务"` for a tool message at index 0 or with a
non-assistant predecessor). -/
def compressRetryContext (msgs : List Msg) (msgIndex : ℕ) (msgType : Str) :
    Str :=
  if msgType == roleUser then str (r"用户输入")
  else if msgType == roleTool && 0 < msgIndex then
    (let prev := msgs.getD (msgIndex - 1) dummyMsg
     if prev.role == roleAssistant then
       (prev.content.getD (str (r"工具执行"))).take 100
     else str (r"未知任务"))
  else str (r"未知任务")

/-- `BaseAgent._compress_and_retry`. -/
def compress_and_retry (cfg : AgentConfig) (llm : LLM) (msgIndex : ℕ)
    (msgType content : Str) (ti : TokenInfo) (respFormat : Option Str)
    (st : AgentState) : Except AgentErr Msg × AgentState :=
  let msgs := st.mem.getD []
  let context := compressRetryContext msgs msgIndex msgType
  let cres := compress_for_immediate_use llm content msgType context ti
    cfg.agentType
  if cres.compressed_content = [] then
    (.error (.err (str (r"Failed to compress content"))), st)
  else
    let msgsC := msgs.set msgIndex
      { msgs.getD msgIndex dummyMsg with content := some cres.compressed_content }
    let stC : AgentState := { mem := some msgsC, repoMem := msgsC }
    match llm.ask msgsC (some cfg.availableTools) respFormat with
    | .ok message =>
      let msgT := truncCalls message
      (.ok msgT, add_to_memory cfg [msgT] stC)
    | .error e => (.error e, stC)

/-- Step 2 and step 3 of `BaseAgent._handle_token_limit_error`: find the
longest message; when none qualifies re-raise the *original* error; choose
segmented processing when its estimate exceeds `max_tokens * 0.7` (exact
arithmetic `10·tokens > 7·max`), else compress in place and retry. -/
def handle_token_limit_step2 (cfg : AgentConfig) (llm : LLM)
    (origErr : AgentErr) (ti : TokenInfo) (respFormat : Option Str)
    (st : AgentState) : Except AgentErr Msg × AgentState :=
  let msgs := st.mem.getD []
  match find_and_compress_longest_message msgs ti.max_tokens with
  | none => (.error origErr, st)
  | some (msgIndex, msgType) =>
    let content := (msgs.getD msgIndex dummyMsg).contentD
    if 10 * estimateTokens content > 7 * ti.max_tokens then
      handle_segmented_processing cfg llm msgIndex msgType content ti
        respFormat st
    else
      compress_and_retry cfg llm msgIndex msgType content ti respFormat st

/-- `BaseAgent._handle_token_limit_error`: step 1 is the forced memory
cleanup with retry (a retry failure that is itself a token-limit error
updates the token info and falls through; any other retry failure
propagates); then steps 2-3. -/
def handle_token_limit_error (cfg : AgentConfig) (llm : LLM)
    (origErr : AgentErr) (ti : TokenInfo) (respFormat : Option Str)
    (st : AgentState) : Except AgentErr Msg × AgentState :=
  let (memCompressed, memA) := auto_manage_memory llm cfg.agentType true
    (st.mem.getD [])
  if memCompressed then
    let stA : AgentState := { mem := some memA, repoMem := memA }
    match llm.ask memA (some cfg.availableTools) respFormat with
    | .ok message =>
      let msgT := truncCalls message
      (.ok msgT, add_to_memory cfg [msgT] stA)
    | .error (.tokenLimit _ c2 m2) =>
      handle_token_limit_step2 cfg llm origErr ⟨c2, m2⟩ respFormat stA
    | .error e => (.error e, stA)
  else
    let stA : AgentState := { mem := some memA, repoMem := st.repoMem }
    handle_token_limit_step2 cfg llm origErr ti respFormat stA

/-- `BaseAgent.ask_with_messages`. -/
def ask_with_messages (cfg : AgentConfig) (llm : LLM) (msgs : List Msg)
    (format : Option Str) (st : AgentState) :
    Except AgentErr Msg × AgentState :=
  let st1 := add_to_memory cfg msgs st
  let (compressed, mem2) := auto_manage_memory llm cfg.agentType false
    (st1.mem.getD [])
  let st2 : AgentState :=
    if compressed then { mem := some mem2, repoMem := mem2 }
    else { mem := some mem2, repoMem := st1.repoMem }
  let responseFormat := format
  match llm.ask mem2 (some cfg.availableTools) responseFormat with
  | .ok message =>
    let msgT := truncCalls message
    (.ok msgT, add_to_memory cfg [msgT] st2)
  | .error (.tokenLimit m c mx) =>
    handle_token_limit_error cfg llm (.tokenLimit m c mx) ⟨c, mx⟩
      responseFormat st2
  | .error (.err m) => (.error (.err m), st2)

/-- `BaseAgent.ask`. -/
def agentAsk (cfg : AgentConfig) (llm : LLM) (request : Str)
    (format : Option Str) (st : AgentState) :
    Except AgentErr Msg × AgentState :=
  ask_with_messages cfg llm [⟨roleUser, some request, [], none⟩] format st

/-- `BaseAgent.roll_back`: drops the last in-process message; the
repository is *not* updated (`roll_back` performs no save). -/
def agentRollBack (st : AgentState) : AgentState :=
  { mem := st.mem.map memoryRollBack, repoMem := st.repoMem }

/-- The `for tool_call in message["tool_calls"]` body of
`BaseAgent.execute`: skip entries without a `function`; raise
`ValueError(f"Unknown tool: ...")` for unknown names; emit the calling
event; invoke with retry (a final failure raises and aborts the stream);
compress oversized tool output (estimate `> 3000`, with
`TokenInfo(current, 4000)`); emit the called event; append the tool
response.  `json_parser.parse` (not under `src/`) is modelled from the
spec as the structured-argument identity. -/
def toolCallsGo (cfg : AgentConfig) (llm : LLM) (tool : ToolOracle)
    (request : Str) :
    List ToolCall → List Event → List Msg →
      Except (AgentErr × List Event) (List Event × List Msg)
  | [], evs, resps => .ok (evs, resps)
  | tc :: rest, evs, resps =>
    match tc.function with
    | none => toolCallsGo cfg llm tool request rest evs resps
    | some fn =>
      match cfg.tools.find? (fun t => t.functions.contains fn.name) with
      | none => .error (.err (str (r"Unknown tool: ") ++ fn.name), evs)
      | some t =>
        let evs1 := evs
          ++ [Event.toolEvent .calling t.name fn.name fn.arguments none]
        match invoke_tool cfg.max_retries (tool fn.name fn.arguments) with
        | .error e => .error (.err e, evs1)
        | .ok result =>
          let toolContent := result.model_dump_json
          let estT := estimateTokens toolContent
          let toolContent2 :=
            if 3000 < estT then
              let cres := compress_for_immediate_use llm toolContent roleTool
                request ⟨estT, 4000⟩ cfg.agentType
              if cres.compressed_content = [] then toolContent
              else cres.compressed_content
            else toolContent
          let evs2 := evs1
            ++ [Event.toolEvent .called t.name fn.name fn.arguments (some result)]
          toolCallsGo cfg llm tool request rest evs2
            (resps ++ [⟨roleTool, some toolContent2, [], some tc.id⟩])

/-- The `for _ in range(self.max_iterations)` loop of `BaseAgent.execute`
with its `else` clause: fuel counts the remaining iterations; exhaustion
emits the error event (Python `for/else`), a terminal assistant message
breaks.  Returns the events emitted and either the final message with the
state, or the escaping exception. -/
def execLoop (cfg : AgentConfig) (llm : LLM) (tool : ToolOracle)
    (request : Str) :
    ℕ → Msg → AgentState → List Event ×
      Except AgentErr (Msg × AgentState)
  | 0, message, st =>
    ([Event.errorEvent (str
        (r"Maximum iteration count reached, failed to complete the task"))],
     .ok (message, st))
  | n + 1, message, st =>
    if message.tool_calls = [] then ([], .ok (message, st))
    else
      match toolCallsGo cfg llm tool request message.tool_calls [] [] with
      | .error (e, evs) => (evs, .error e)
      | .ok (evs, resps) =>
        match ask_with_messages cfg llm resps none st with
        | (.ok m2, st2) =>
          let (evs2, out) := execLoop cfg llm tool request n m2 st2
          (evs ++ evs2, out)
        | (.error e, _) => (evs, .error e)

/-- `BaseAgent.execute(request)`: the emitted event stream and the final
state (or the escaping exception).  The pre-loop `auto_manage_memory` runs
for execution agents; the request-length check only sets the never-read
`_segment_context` and is behaviourally a no-op; after the loop the source
unconditionally emits `MessageEvent(message["content"])` — including after
the `for/else` exhaustion `ErrorEvent`. -/
def agentExecute (cfg : AgentConfig) (llm : LLM) (tool : ToolOracle)
    (request : Str) (st : AgentState) :
    List Event × Except AgentErr AgentState :=
  let st1 : AgentState :=
    if cfg.agentType = AgentType.execution then
      match st.mem with
      | none => st
      | some m =>
        let (compressed, m2) := auto_manage_memory llm cfg.agentType false m
        if compressed then { mem := some m2, repoMem := m2 }
        else { mem := some m2, repoMem := st.repoMem }
    else st
  let _needsSegmentation := 2 * estimateTokens request > llm.max_tokens
  match agentAsk cfg llm request cfg.format st1 with
  | (.error e, _) => ([], .error e)
  | (.ok m0, st2) =>
    match execLoop cfg llm tool request cfg.max_iterations m0 st2 with
    | (evs, .error e) => (evs, .error e)
    | (evs, .ok (mF, stF)) =>
      (evs ++ [Event.messageEvent mF.content], .ok stF)

/-! ### Engine-loop theorems (C1, C2) -/

/-- A one-function toolkit. -/
def c1Tool : ToolSpec := ⟨str (r"file"), [str (r"file_read")]⟩

/-- A planner-named agent with an iteration cap of 1, so one tool hop
exhausts the loop. -/
def c1Cfg : AgentConfig :=
  ⟨str (r"planner"), str (r"P"), none, 1, 3, [c1Tool]⟩

/-- An LLM oracle that asks for the same tool call on every turn. -/
def c1LLM : LLM :=
  ⟨fun _ _ _ => .ok ⟨roleAssistant, some (str (r"working")),
    [⟨str (r"c1"), some ⟨str (r"file_read"), str (r"a")⟩⟩], none⟩, 8192⟩

/-- A tool that always succeeds. -/
def c1ToolOracle : ToolOracle := fun _ _ _ => .ok ⟨true, none, some (str (r"abc"))⟩

/-- C1: a run that exhausts `max_iterations` emits the terminal
`ErrorEvent` *and then also* a `MessageEvent` taken from the last
(tool-calling) assistant message — the Python `for/else` yields the error
event, but control then falls through to the unconditional
`yield MessageEvent(message["content"])` on line 195 of `base.py`.  The
stream therefore ends with a Message even when the engine has declared
failure, contradicting both the claim and §7 of the spec ("terminal `Error`
event; `execute` returns"). -/
theorem C1_exhaustion_emits_error_then_message :
    (agentExecute c1Cfg c1LLM c1ToolOracle (str (r"hi")) ⟨none, []⟩).1 =
      [Event.toolEvent .calling (str (r"file")) (str (r"file_read"))
         (str (r"a")) none,
       Event.toolEvent .called (str (r"file")) (str (r"file_read"))
         (str (r"a")) (some ⟨true, none, some (str (r"abc"))⟩),
       Event.errorEvent (str
         (r"Maximum iteration count reached, failed to complete the task")),
       Event.messageEvent (some (str (r"working")))] ∧
    (∃ s, (agentExecute c1Cfg c1LLM c1ToolOracle (str (r"hi"))
      ⟨none, []⟩).2 = Except.ok s) := by
  exact ⟨by decide, ⟨_, rfl⟩⟩

/-- C2 (counterexample): a tool that raises `"boom"` on every attempt makes
the `ValueError` from `invoke_tool` escape `execute` — no Tool message with
the error text is produced, no `ToolCalled` event follows, and the
iteration does not continue, contradicting the claim. -/
theorem C2_counterexample :
    (agentExecute c1Cfg c1LLM (fun _ _ _ => .error (str (r"boom")))
        (str (r"hi")) ⟨none, []⟩).2 =
      .error (.err (str (r"Tool execution failed, retried 3 times: boom"))) ∧
    (agentExecute c1Cfg c1LLM (fun _ _ _ => .error (str (r"boom")))
        (str (r"hi")) ⟨none, []⟩).1 =
      [Event.toolEvent .calling (str (r"file")) (str (r"file_read"))
        (str (r"a")) none] := by
  exact ⟨rfl, by decide⟩

/-- C2 (amended): when every attempt of the tool raises, `invoke_tool`
makes `max_retries + 1` attempts and then raises a `ValueError` whose text
carries the *last* error text, and this exception escapes `execute` to the
caller: the event stream stops after the `ToolCalling` event, and no Tool
message recording the failure is appended.  (Quantified over the
per-attempt error texts `errs`.) -/
theorem C2_amended (errs : ℕ → Str) :
    invoke_tool 3 (fun i => .error (errs i)) =
      .error (str (r"Tool execution failed, retried 3 times: ") ++ errs 3) ∧
    (agentExecute c1Cfg c1LLM (fun _ _ i => .error (errs i))
        (str (r"hi")) ⟨none, []⟩).2 =
      .error (.err (str (r"Tool execution failed, retried 3 times: ")
        ++ errs 3)) ∧
    (agentExecute c1Cfg c1LLM (fun _ _ i => .error (errs i))
        (str (r"hi")) ⟨none, []⟩).1 =
      [Event.toolEvent .calling (str (r"file")) (str (r"file_read"))
        (str (r"a")) none] := by
  refine ⟨rfl, rfl, rfl⟩

/-! ### Persistence theorems (C3) -/

theorem add_to_memory_sync (cfg : AgentConfig) (msgs : List Msg)
    (st : AgentState) :
    (add_to_memory cfg msgs st).mem = some (add_to_memory cfg msgs st).repoMem
    := rfl

theorem compress_and_retry_ok_sync (cfg : AgentConfig) (llm : LLM)
    (msgIndex : ℕ) (msgType content : Str) (ti : TokenInfo)
    (respFormat : Option Str) (st : AgentState) (m : Msg) (st2 : AgentState)
    (h : compress_and_retry cfg llm msgIndex msgType content ti respFormat st
      = (.ok m, st2)) : st2.mem = some st2.repoMem := by
  simp only [compress_and_retry] at h
  split at h
  · have h1 := congrArg Prod.fst h
    exact absurd h1 (by simp)
  · split at h
    · have h2 := congrArg Prod.snd h
      simp only [] at h2
      subst h2
      rfl
    · have h1 := congrArg Prod.fst h
      exact absurd h1 (by simp)

theorem handle_segmented_ok_sync (cfg : AgentConfig) (llm : LLM)
    (msgIndex : ℕ) (msgType content : Str) (ti : TokenInfo)
    (respFormat : Option Str) (st : AgentState) (m : Msg) (st2 : AgentState)
    (h : handle_segmented_processing cfg llm msgIndex msgType content ti
      respFormat st = (.ok m, st2)) : st2.mem = some st2.repoMem := by
  simp only [handle_segmented_processing] at h
  split at h
  · have h1 := congrArg Prod.fst h
    exact absurd h1 (by simp)
  · split at h
    · have h1 := congrArg Prod.fst h
      exact absurd h1 (by simp)
    · have h2 := congrArg Prod.snd h
      simp only [] at h2
      subst h2
      rfl

theorem handle_token_limit_step2_ok_sync (cfg : AgentConfig) (llm : LLM)
    (origErr : AgentErr) (ti : TokenInfo) (respFormat : Option Str)
    (st : AgentState) (m : Msg) (st2 : AgentState)
    (h : handle_token_limit_step2 cfg llm origErr ti respFormat st
      = (.ok m, st2)) : st2.mem = some st2.repoMem := by
  simp only [handle_token_limit_step2] at h
  split at h
  · have h1 := congrArg Prod.fst h
    exact absurd h1 (by simp)
  · split at h
    · exact handle_segmented_ok_sync _ _ _ _ _ _ _ _ _ _ h
    · exact compress_and_retry_ok_sync _ _ _ _ _ _ _ _ _ _ h

theorem handle_token_limit_error_ok_sync (cfg : AgentConfig) (llm : LLM)
    (origErr : AgentErr) (ti : TokenInfo) (respFormat : Option Str)
    (st : AgentState) (m : Msg) (st2 : AgentState)
    (h : handle_token_limit_error cfg llm origErr ti respFormat st
      = (.ok m, st2)) : st2.mem = some st2.repoMem := by
  simp only [handle_token_limit_error] at h
  split at h
  · split at h
    · have h2 := congrArg Prod.snd h
      simp only [] at h2
      subst h2
      rfl
    · exact handle_token_limit_step2_ok_sync _ _ _ _ _ _ _ _ h
    · have h1 := congrArg Prod.fst h
      exact absurd h1 (by simp)
  · exact handle_token_limit_step2_ok_sync _ _ _ _ _ _ _ _ h

theorem ask_with_messages_ok_sync (cfg : AgentConfig) (llm : LLM)
    (msgs : List Msg) (format : Option Str) (st : AgentState) (m : Msg)
    (st2 : AgentState)
    (h : ask_with_messages cfg llm msgs format st = (.ok m, st2)) :
    st2.mem = some st2.repoMem := by
  simp only [ask_with_messages] at h
  split at h
  · have h2 := congrArg Prod.snd h
    simp only [] at h2
    subst h2
    rfl
  · exact handle_token_limit_error_ok_sync _ _ _ _ _ _ _ _ h
  · have h1 := congrArg Prod.fst h
    exact absurd h1 (by simp)

/-- C3 (counterexample): `BaseAgent.roll_back` mutates the in-process
memory but performs no `save_memory`, so right after it returns, the
repository still holds the dropped message and differs from the in-process
memory. -/
theorem C3_counterexample :
    (agentRollBack ⟨some [⟨roleUser, some (str (r"hi")), [], none⟩],
        [⟨roleUser, some (str (r"hi")), [], none⟩]⟩).mem = some [] ∧
    (agentRollBack ⟨some [⟨roleUser, some (str (r"hi")), [], none⟩],
        [⟨roleUser, some (str (r"hi")), [], none⟩]⟩).repoMem =
      [⟨roleUser, some (str (r"hi")), [], none⟩] ∧
    ¬ (agentRollBack ⟨some [⟨roleUser, some (str (r"hi")), [], none⟩],
        [⟨roleUser, some (str (r"hi")), [], none⟩]⟩).mem =
      some (agentRollBack ⟨some [⟨roleUser, some (str (r"hi")), [], none⟩],
        [⟨roleUser, some (str (r"hi")), [], none⟩]⟩).repoMem := by
  exact ⟨by decide, by decide, by decide⟩

/-- C3 (amended): every public mutation that goes through
`ask_with_messages` (appending inputs and assistant messages, automatic and
forced compression, in-place compression of the longest message, segmented
processing) leaves the repository equal to the in-process memory whenever
the operation returns successfully — every success path exits through
`_add_to_memory`, which saves.  `roll_back`, however, only drops the last
in-process message and never saves, so it breaks the invariant whenever the
memory is nonempty (see the counterexample). -/
theorem C3_amended :
    (∀ (cfg : AgentConfig) (llm : LLM) (msgs : List Msg)
        (format : Option Str) (st : AgentState) (m : Msg) (st2 : AgentState),
      ask_with_messages cfg llm msgs format st = (.ok m, st2) →
      st2.mem = some st2.repoMem) ∧
    (∀ st : AgentState, (agentRollBack st).repoMem = st.repoMem ∧
      (agentRollBack st).mem = st.mem.map memoryRollBack) :=
  ⟨fun cfg llm msgs format st m st2 h =>
    ask_with_messages_ok_sync cfg llm msgs format st m st2 h,
   fun _ => ⟨rfl, rfl⟩⟩

/-- An LLM oracle returning a terminal assistant message. -/
def c3LLM : LLM :=
  ⟨fun _ _ _ => .ok ⟨roleAssistant, some (str (r"hello")), [], none⟩, 8192⟩

/-- C3 witness: a concrete successful `ask_with_messages` run, after which
the repository equals the in-process memory, and a concrete `roll_back`. -/
theorem C3_amended_witness :
    ((ask_with_messages c1Cfg c3LLM [⟨roleUser, some (str (r"hi")), [], none⟩]
        none ⟨none, []⟩).2).mem =
      some ((ask_with_messages c1Cfg c3LLM
        [⟨roleUser, some (str (r"hi")), [], none⟩] none ⟨none, []⟩).2).repoMem
    ∧ (agentRollBack ⟨some [], []⟩).repoMem = [] :=
  ⟨C3_amended.1 c1Cfg c3LLM [⟨roleUser, some (str (r"hi")), [], none⟩] none
      ⟨none, []⟩
      ⟨roleAssistant, some (str (r"hello")), [], none⟩
      ((ask_with_messages c1Cfg c3LLM
        [⟨roleUser, some (str (r"hi")), [], none⟩] none ⟨none, []⟩).2)
      rfl,
   (C3_amended.2 ⟨some [], []⟩).1⟩

/-! ### Recovery-ladder fallback theorems (C5) -/

def c5Sys : Msg := ⟨roleSystem, some (str (r"P")), [], none⟩

/-- Ten CJK ideographs: 15 estimated tokens — above the 30%
longest-message threshold for `max_tokens = 40`, below the 70% segmentation
threshold, and already within the planner compression target, so the
in-place compression keeps the content and the retry uses the full
conversation. -/
def c5Big : Str := List.replicate 10 (Char.ofNat 0x4e2d)

def c5User : Msg := ⟨roleUser, some c5Big, [], none⟩

def c5Fill : Msg := ⟨roleAssistant, some (str (r"a")), [], none⟩

def c5Mem : List Msg := [c5Sys, c5Fill, c5User]

def c5Cfg : AgentConfig := ⟨str (r"planner"), str (r"P"), none, 30, 3, []⟩

/-- An LLM oracle that *would* succeed on the reduced context
`[system, lastUserMessage]` and reports a token-limit failure on every
other conversation. -/
def c5LLM : LLM :=
  ⟨fun msgs _ _ =>
    if msgs = [c5Sys, c5User] then
      .ok ⟨roleAssistant, some (str (r"ok")), [], none⟩
    else .error (.tokenLimit (str (r"t")) 50 40), 40⟩

/-- C5 (counterexample): the recovery ladder of `ask_with_messages` runs
forced cleanup (a no-op below the threshold), compresses the longest
message in place, retries once, and when that retry fails with a
token-limit error it propagates the failure — even though this oracle
would have answered successfully on the reduced context
`[system, lastUserMessage]`.  The absolute-fallback rung the claim
describes does not exist in `base.py`: `_compress_and_retry` re-raises the
retry failure directly. -/
theorem C5_counterexample :
    (ask_with_messages c5Cfg c5LLM [] none ⟨some c5Mem, c5Mem⟩).1 =
      .error (.tokenLimit (str (r"t")) 50 40) ∧
    c5LLM.ask [c5Sys, c5User] (some c5Cfg.availableTools) none =
      .ok ⟨roleAssistant, some (str (r"ok")), [], none⟩ := by
  exact ⟨rfl, rfl⟩

/-- C5 (amended): when the retried LLM call after the in-place compression
fails, `_compress_and_retry` propagates that failure unchanged and
immediately — the state still holds the full compressed conversation and no
further LLM call (in particular no retry on a context reduced to
`[system, lastUserMessage]`) is made before the exception reaches the
caller. -/
theorem C5_amended (cfg : AgentConfig) (llm : LLM) (msgIndex : ℕ)
    (msgType content : Str) (ti : TokenInfo) (respFormat : Option Str)
    (st : AgentState) (e : AgentErr) :
    ∀ cres msgsC,
      cres = compress_for_immediate_use llm content msgType
        (compressRetryContext (st.mem.getD []) msgIndex msgType) ti
        cfg.agentType →
      cres.compressed_content ≠ [] →
      msgsC = (st.mem.getD []).set msgIndex
        { (st.mem.getD []).getD msgIndex dummyMsg with
            content := some cres.compressed_content } →
      llm.ask msgsC (some cfg.availableTools) respFormat = .error e →
      compress_and_retry cfg llm msgIndex msgType content ti respFormat st =
        (.error e, { mem := some msgsC, repoMem := msgsC }) := by
  intro cres msgsC hcres hne hmsgs hask
  simp only [compress_and_retry]
  rw [← hcres]
  rw [if_neg hne]
  rw [← hmsgs, hask]

/-- C5 witness: the amended propagation applied to the concrete failing
retry of the counterexample scenario. -/
theorem C5_amended_witness :
    compress_and_retry c5Cfg c5LLM 2 roleUser c5Big ⟨50, 40⟩ none
        ⟨some c5Mem, c5Mem⟩ =
      (.error (.tokenLimit (str (r"t")) 50 40),
       { mem := some (c5Mem.set 2
           { c5Mem.getD 2 dummyMsg with
               content := some ((compress_for_immediate_use c5LLM c5Big
                 roleUser (compressRetryContext c5Mem 2 roleUser)
                 ⟨50, 40⟩ c5Cfg.agentType).compressed_content) }),
         repoMem := c5Mem.set 2
           { c5Mem.getD 2 dummyMsg with
               content := some ((compress_for_immediate_use c5LLM c5Big
                 roleUser (compressRetryContext c5Mem 2 roleUser)
                 ⟨50, 40⟩ c5Cfg.agentType).compressed_content) } }) :=
  C5_amended c5Cfg c5LLM 2 roleUser c5Big ⟨50, 40⟩ none
    ⟨some c5Mem, c5Mem⟩ (.tokenLimit (str (r"t")) 50 40)
    (compress_for_immediate_use c5LLM c5Big roleUser
      (compressRetryContext c5Mem 2 roleUser) ⟨50, 40⟩ c5Cfg.agentType)
    (c5Mem.set 2
      { c5Mem.getD 2 dummyMsg with
          content := some ((compress_for_immediate_use c5LLM c5Big roleUser
            (compressRetryContext c5Mem 2 roleUser) ⟨50, 40⟩
            c5Cfg.agentType).compressed_content) })
    rfl (by decide) rfl rfl

end AiManus
